import Mathlib

/-!
Shallow embedding of the Moduleo reporting pipeline (Python/pandas) and
proofs of the spec's claims about it.

Modelling conventions:
* Python/JSON scalar values are `PyVal` (None, int, float-as-rational, str);
  `dict.get` over a JSON object is association-list lookup defaulting to None.
* pandas DataFrames are rectangular tables `DataFrame` (a column-name list
  plus rows of cells); merge/drop/fillna mirror the pandas semantics the
  code uses (left/inner merge on a key, NaN never matches a key).
* Monetary floats are modelled as rationals; datetimes as integer minute
  counts, with the calendar day recovered by flooring.
* Remote HTTP calls are modelled by their response data, passed in as input.
-/

/-- A Python/JSON scalar value as the pipeline code sees it. -/
inductive PyVal where
  | vNone : PyVal
  | vInt : Int → PyVal
  | vRat : ℚ → PyVal
  | vStr : String → PyVal
deriving DecidableEq, Repr

/-- A JSON object: association list of field name to value (`dict` in the code). -/
abbrev PyObj := List (String × PyVal)

/-- `rec.get(k)`: first binding of `k`, defaulting to Python `None`. -/
def pyGet (rec : PyObj) (k : String) : PyVal :=
  match rec.find? (fun p => p.1 = k) with
  | some p => p.2
  | none => PyVal.vNone

/-- `rec.get(k, d)`: first binding of `k`, defaulting to `d` when the key is absent
(a present `None` is returned as-is, like Python). -/
def pyGetD (rec : PyObj) (k : String) (d : PyVal) : PyVal :=
  match rec.find? (fun p => p.1 = k) with
  | some p => p.2
  | none => d

/-- Python truthiness of a scalar. -/
def pyTruthy : PyVal → Bool
  | PyVal.vNone => false
  | PyVal.vInt n => n ≠ 0
  | PyVal.vRat q => q ≠ 0
  | PyVal.vStr s => s ≠ ""

/-- Python `a or b` on scalars. -/
def pyOr (a b : PyVal) : PyVal := if pyTruthy a then a else b

/-- Truncation of a rational toward zero, as Python `int(float)` does. -/
def ratTrunc (q : ℚ) : Int := if 0 ≤ q then ⌊q⌋ else -⌊-q⌋

/-- Decimal value of a digit list. -/
def digitsVal (cs : List Char) : Nat := cs.foldl (fun n c => n * 10 + (c.toNat - 48)) 0

/-- `str.strip()`-style whitespace trimming on a character list. -/
def trimChars (cs : List Char) : List Char :=
  ((cs.dropWhile Char.isWhitespace).reverse.dropWhile Char.isWhitespace).reverse

/-- Python `int(str)` after trimming: optional sign plus digits. -/
def charsToInt? : List Char → Option Int
  | '-' :: ds => if ds ≠ [] ∧ ds.all Char.isDigit then some (-(digitsVal ds : Int)) else none
  | '+' :: ds => if ds ≠ [] ∧ ds.all Char.isDigit then some ((digitsVal ds : Int)) else none
  | ds => if ds ≠ [] ∧ ds.all Char.isDigit then some ((digitsVal ds : Int)) else none

/-- Python `int(x)` on a scalar: `none` models a raised TypeError/ValueError. -/
def pyInt? : PyVal → Option Int
  | PyVal.vNone => none
  | PyVal.vInt n => some n
  | PyVal.vRat q => some (ratTrunc q)
  | PyVal.vStr s => charsToInt? (trimChars s.toList)

/-- Digits-and-one-optional-point decimal parser: the fragment of Python
`float(str)` the pipeline's data exercises. -/
def parseFloatChars : List Char → Option ℚ
  | [] => none
  | cs =>
    let intPart := cs.takeWhile Char.isDigit
    let rest := cs.dropWhile Char.isDigit
    match rest with
    | [] =>
      if intPart.isEmpty then none
      else some ((digitsVal intPart : ℚ))
    | '.' :: fracPart =>
      if fracPart.all Char.isDigit ∧ ¬(intPart.isEmpty ∧ fracPart.isEmpty) then
        some ((digitsVal intPart : ℚ)
          + (digitsVal fracPart : ℚ) / ((10 : ℚ) ^ fracPart.length))
      else none
    | _ => none

/-- Python `float(str)` (restricted to plain decimals, optional sign). -/
def parseFloat? (s : String) : Option ℚ :=
  match trimChars s.toList with
  | '-' :: cs => (parseFloatChars cs).map Neg.neg
  | '+' :: cs => parseFloatChars cs
  | cs => parseFloatChars cs

/-- Python `float(x)` on a scalar: `none` models a raised TypeError/ValueError. -/
def pyFloat? : PyVal → Option ℚ
  | PyVal.vNone => none
  | PyVal.vInt n => some (n : ℚ)
  | PyVal.vRat q => some q
  | PyVal.vStr s => parseFloat? s

/-! ## DataFrame model -/

/-- A pandas cell: int, float (rational), string, or NaN. -/
inductive Cell where
  | cInt : Int → Cell
  | cRat : ℚ → Cell
  | cStr : String → Cell
  | cNaN : Cell
deriving DecidableEq, Repr

/-- A rectangular pandas DataFrame: ordered column names and rows of cells. -/
structure DataFrame where
  cols : List String
  rows : List (List Cell)
deriving DecidableEq, Repr

/-- Well-formedness: every row has exactly one cell per column. -/
def DataFrame.WF (df : DataFrame) : Prop :=
  ∀ r ∈ df.rows, r.length = df.cols.length

/-- Cell of `row` (laid out along `cols`) in the first column labelled `c`;
NaN when absent. -/
def getCellIn : List String → List Cell → String → Cell
  | [], _, _ => Cell.cNaN
  | _ :: _, [], _ => Cell.cNaN
  | c0 :: cs, x :: xs, c => if c0 = c then x else getCellIn cs xs c

/-- Column labels with every occurrence of `c` removed. -/
def removeCol : List String → String → List String
  | [], _ => []
  | c0 :: cs, c => if c0 = c then removeCol cs c else c0 :: removeCol cs c

/-- A row with the cells of every column labelled `c` removed. -/
def dropRowCells : List String → List Cell → String → List Cell
  | [], _, _ => []
  | _ :: _, [], _ => []
  | c0 :: cs, x :: xs, c => if c0 = c then dropRowCells cs xs c else x :: dropRowCells cs xs c

/-- `df.drop(columns=[c])`: remove every column named `c`. -/
def dropCol (df : DataFrame) (c : String) : DataFrame :=
  { cols := removeCol df.cols c,
    rows := df.rows.map (fun r => dropRowCells df.cols r c) }

/-- `df[c] = v`: append a constant column (the code only adds fresh columns). -/
def addConstCol (df : DataFrame) (c : String) (v : Cell) : DataFrame :=
  { cols := df.cols ++ [c], rows := df.rows.map (fun r => r ++ [v]) }

/-- Key matching in a pandas merge: NaN joins nothing. -/
def cellKeyMatch (a b : Cell) : Bool :=
  a ≠ Cell.cNaN ∧ b ≠ Cell.cNaN ∧ a = b

/-- The right-side rows matching a left row's key cell `v` in a merge. -/
def matchRows (rdf : DataFrame) (key : String) (v : Cell) : List (List Cell) :=
  rdf.rows.filter (fun rr => cellKeyMatch (getCellIn rdf.cols rr key) v)

/-- Output rows a left-merge produces for one left row. -/
def leftMergeRow (rdf : DataFrame) (key : String) (lcols : List String) (lr : List Cell) :
    List (List Cell) :=
  let ms := matchRows rdf key (getCellIn lcols lr key)
  if ms.isEmpty then
    [lr ++ List.replicate (removeCol rdf.cols key).length Cell.cNaN]
  else
    ms.map (fun rr => lr ++ dropRowCells rdf.cols rr key)

/-- Output rows an inner merge produces for one left row. -/
def innerMergeRow (rdf : DataFrame) (key : String) (lcols : List String) (lr : List Cell) :
    List (List Cell) :=
  (matchRows rdf key (getCellIn lcols lr key)).map (fun rr => lr ++ dropRowCells rdf.cols rr key)

/-- `l.merge(r, on=key, how='left')`: every left row is kept; unmatched rows
get NaN in the right-hand columns. -/
def leftMergeOn (l r : DataFrame) (key : String) : DataFrame :=
  { cols := l.cols ++ removeCol r.cols key,
    rows := l.rows.flatMap (leftMergeRow r key l.cols) }

/-- `l.merge(r, on=key, how='inner')`: unmatched left rows are dropped. -/
def innerMergeOn (l r : DataFrame) (key : String) : DataFrame :=
  { cols := l.cols ++ removeCol r.cols key,
    rows := l.rows.flatMap (innerMergeRow r key l.cols) }

/-- One row of `fillna` applied to the first column labelled `c`. -/
def fillnaRow : List String → List Cell → String → Cell → List Cell
  | [], row, _, _ => row
  | _ :: _, [], _, _ => []
  | c0 :: cs, x :: xs, c, v =>
    if c0 = c then (if x = Cell.cNaN then v else x) :: xs else x :: fillnaRow cs xs c v

/-- `df[c] = df[c].fillna(v)`: replace NaN by `v` in column `c`. -/
def fillnaCol (df : DataFrame) (c : String) (v : Cell) : DataFrame :=
  { cols := df.cols, rows := df.rows.map (fun r => fillnaRow df.cols r c v) }

/-- The `idAffaire` key cell of each row of `df`, in row order. -/
def rowIdCells (df : DataFrame) : List Cell :=
  df.rows.map (fun r => getCellIn df.cols r "idAffaire")

/-- The rows of `df` have pairwise distinct `idAffaire` cells. -/
def uniqueIdRows (df : DataFrame) : Prop := (rowIdCells df).Nodup

instance (df : DataFrame) : Decidable df.WF :=
  decidable_of_iff (∀ r ∈ df.rows, r.length = df.cols.length) Iff.rfl

instance (df : DataFrame) : Decidable (uniqueIdRows df) :=
  List.nodupDecidable (rowIdCells df)

/-! ## HTTP layer and per-case id-list fetches (fetch_affaire_factures.py,
fetch_affaire_devis.py) -/

/-- A JSON array element: a scalar or an object. -/
inductive JVal where
  | jPrim : PyVal → JVal
  | jObj : PyObj → JVal
deriving DecidableEq, Repr

/-- The response to one HTTP GET, after the retry adapter has given up or
succeeded: final status code and decoded JSON array body. -/
structure HttpResponse where
  status : Nat
  body : List JVal
deriving DecidableEq, Repr

/-- Python `str.isdigit()` (ASCII digits fragment). -/
def strIsDigit (s : String) : Bool := s ≠ "" ∧ s.toList.all Char.isDigit

/-- `int(item)` for a scalar list element, as the id-extraction loops use it. -/
def itemToId? (v : PyVal) : Option Int :=
  match v with
  | PyVal.vInt n => some n
  | PyVal.vRat q => some (ratTrunc q)
  | PyVal.vStr s => if strIsDigit s then charsToInt? s.toList else none
  | PyVal.vNone => none

/-- One element of the facture id-list response (fetch_affaire_factures.py,
lines 44-51: `dict` branch first, then scalar branch). -/
def factureItemId? (item : JVal) : Option Int :=
  match item with
  | JVal.jObj o => pyInt? (pyOr (pyGet o "idFacture") (pyGet o "IdFacture"))
  | JVal.jPrim v => itemToId? v

/-- One element of the devis id-list response (fetch_affaire_devis.py,
lines 48-59: scalar branch first, then `dict` branch). -/
def devisItemId? (item : JVal) : Option Int :=
  match item with
  | JVal.jPrim v => itemToId? v
  | JVal.jObj o => pyInt? (pyOr (pyGet o "idDevis") (pyGet o "IdDevis"))

/-- `fetch_affaire_facture_ids`: 404 is mapped to the empty list; any other
error status (`raise_for_status`) surfaces as an error. -/
def fetchAffaireFactureIds (resp : HttpResponse) : Except Nat (List Int) :=
  if resp.status = 404 then Except.ok []
  else if 400 ≤ resp.status then Except.error resp.status
  else Except.ok (resp.body.filterMap factureItemId?)

/-- `fetch_affaire_devis`: no 404 handling; `raise_for_status` raises on every
status ≥ 400, 404 included. -/
def fetchAffaireDevis (resp : HttpResponse) : Except Nat (List Int) :=
  if 400 ≤ resp.status then Except.error resp.status
  else Except.ok (resp.body.filterMap devisItemId?)

/-! ## Pipeline orchestrator (pipeline.py, ModuleoPipeline) -/

/-- One pipeline step: its display name and the outcome of its callable
(`Except.error` models a raised exception, caught by `safe_execute`). -/
structure PStep where
  name : String
  outcome : Except String String
deriving Repr

/-- `run_step` (pipeline.py lines 104-147): `safe_execute` turns a raised
exception into `False`, success into `True`. -/
def runStepOk (s : PStep) : Bool :=
  match s.outcome with
  | Except.ok _ => true
  | Except.error _ => false

/-- `run_pipeline` (pipeline.py lines 149-183) with its execution trace: the
loop stops at the first failing step; the second component lists the names of
the steps on which `run_step` was invoked, in order. -/
def runPipelineTrace : List PStep → Bool × List String
  | [] => (true, [])
  | s :: rest =>
    if runStepOk s then
      let t := runPipelineTrace rest
      (t.1, s.name :: t.2)
    else (false, [s.name])

/-- Overall pipeline result alone. -/
def runPipeline (steps : List PStep) : Bool := (runPipelineTrace steps).1

/-! ## Quote integration (fetch_affaire_devis.py, update_affaires_combinees_with_devis) -/

/-- `dict[k] = v`: overwrite-or-append into an Int-keyed dict. -/
def dictInsert (m : List (Int × Int)) (k v : Int) : List (Int × Int) :=
  (m.filter (fun p => p.1 ≠ k)) ++ [(k, v)]

/-- `dict.get(k)`. -/
def dictGet? (m : List (Int × Int)) (k : Int) : Option Int :=
  (m.find? (fun p => p.1 = k)).map Prod.snd

/-- Lines 90-96: build `id_to_aff` from the per-case id-list responses
(`perCase` is the remote id-list for each case; later cases overwrite). -/
def buildIdToAff (affaireIds : List Int) (perCase : Int → List Int) : List (Int × Int) :=
  affaireIds.foldl (fun m aid => (perCase aid).foldl (fun m did => dictInsert m did aid) m) []

/-- Line 103: `rec.get('etat') or rec.get('Etat')`. -/
def devisEtatVal (rec : PyObj) : PyVal := pyOr (pyGet rec "etat") (pyGet rec "Etat")

/-- Lines 102-121: one quote-detail record to its `(idAffaire, montant)`
contribution; `none` when the loop `continue`s past it. -/
def processDevisRec (idToAff : List (Int × Int)) (rec : PyObj) : Option (Int × ℚ) :=
  match pyInt? (devisEtatVal rec) with
  | none => none
  | some e =>
    if e ≠ 0 then none
    else
      match pyInt? (pyOr (pyGet rec "idDevis") (pyGet rec "IdDevis")) with
      | none => none
      | some did =>
        let montant := pyOr (pyOr (pyGet rec "montantTotalHT") (pyGet rec "MontantTotalHT"))
          (PyVal.vInt 0)
        let mv := (pyFloat? montant).getD 0
        match dictGet? idToAff did with
        | some aid => some (aid, mv)
        | none => none

/-- The distinct group keys of an aggregation, sorted ascending (pandas
groupby sorts keys by default). -/
def aggKeys {α : Type} (records : List (Int × α)) : List Int :=
  List.insertionSort (fun a b => a ≤ b) (records.map Prod.fst).dedup

/-- The per-key sum of an aggregation. -/
def groupSumVal (records : List (Int × ℚ)) (k : Int) : ℚ :=
  ((records.filter (fun p => p.1 = k)).map Prod.snd).sum

/-- The per-key maximum of a string aggregation (lexicographic, as pandas
computes on object columns). -/
def groupMaxVal (records : List (Int × String)) (k : Int) : String :=
  ((records.filter (fun p => p.1 = k)).map Prod.snd).foldl max ""

/-- `df.groupby(key)[val].sum().reset_index()` on int-keyed money records. -/
def groupbySum (keyCol valCol : String) (records : List (Int × ℚ)) : DataFrame :=
  { cols := [keyCol, valCol],
    rows := (aggKeys records).map (fun k =>
      [Cell.cInt k, Cell.cRat (groupSumVal records k)]) }

/-- `df.groupby(key)[val].max().reset_index()` on int-keyed string records. -/
def groupbyMaxStr (keyCol valCol : String) (records : List (Int × String)) : DataFrame :=
  { cols := [keyCol, valCol],
    rows := (aggKeys records).map (fun k =>
      [Cell.cInt k, Cell.cStr (groupMaxVal records k)]) }

/-- `if c in df.columns: df = df.drop(columns=[c])`. -/
def condDropCol (df : DataFrame) (c : String) : DataFrame :=
  if c ∈ df.cols then dropCol df c else df

/-- Lines 127-129: `if 'MontantTotalHT' in df_combined.columns: drop`. -/
def devisBase (df : DataFrame) : DataFrame :=
  condDropCol df "MontantTotalHT"

/-- Lines 123-136: drop any prior `MontantTotalHT` column, then either set the
column to 0.0 (no quote records) or left-merge the per-case sums and fill
missing cases with 0.0. -/
def updateCombineesWithDevis (dfCombined : DataFrame) (records : List (Int × ℚ)) : DataFrame :=
  if records.isEmpty then addConstCol (devisBase dfCombined) "MontantTotalHT" (Cell.cRat 0)
  else
    fillnaCol
      (leftMergeOn (devisBase dfCombined) (groupbySum "idAffaire" "MontantTotalHT" records)
        "idAffaire")
      "MontantTotalHT" (Cell.cRat 0)

/-- `update_affaires_combinees_with_devis` end to end, with the remote data
(`perCaseDevis` id lists, `details` batch response) as inputs. -/
def updateAffairesCombineesWithDevis (dfCombined : DataFrame) (affaireIds : List Int)
    (perCaseDevis : Int → List Int) (details : List PyObj) : DataFrame :=
  updateCombineesWithDevis dfCombined
    (details.filterMap (processDevisRec (buildIdToAff affaireIds perCaseDevis)))

/-! ## Invoice integration (fetch_affaire_factures.py,
update_affaires_combinees_with_factures) -/

/-- Lines 86-105: one invoice-detail record to `(idAffaire, montant, dateEmission)`;
`none` when the loop `continue`s past it. Date-emission fields are modelled as
strings (the JSON date format); a non-string truthy value is mapped to `""`. -/
def processFactureRec (idToAff : List (Int × Int)) (rec : PyObj) : Option (Int × ℚ × String) :=
  match pyInt? (pyOr (pyGet rec "idFacture") (pyGet rec "IdFacture")) with
  | none => none
  | some fid =>
    let montant := (pyFloat? (pyGetD rec "MontantTotalHT" (PyVal.vRat 0))).getD 0
    let dateEm :=
      match pyOr (pyOr (pyGet rec "DateEmission") (pyGet rec "dateEmission")) (PyVal.vStr "") with
      | PyVal.vStr s => s
      | _ => ""
    match dictGet? idToAff fid with
    | some aid => some (aid, montant, dateEm)
    | none => none

/-- `df.rename(columns={old: new})`. -/
def renameCol (df : DataFrame) (old new : String) : DataFrame :=
  { cols := df.cols.map (fun c => if c = old then new else c), rows := df.rows }

/-- Lines 119-122: drop prior owned columns from the combined artifact. -/
def facturesBase (df : DataFrame) : DataFrame :=
  condDropCol (condDropCol df "MontantFacturesHT") "DateEmission_Facture"

/-- Lines 108-114: `df_sum`, the per-case invoice-amount aggregation (with the
explicit empty frame for no records). -/
def facturesSumDf (records : List (Int × ℚ × String)) : DataFrame :=
  if records.isEmpty then { cols := ["idAffaire", "MontantFacturesHT"], rows := [] }
  else groupbySum "idAffaire" "MontantFacturesHT" (records.map (fun r => (r.1, r.2.1)))

/-- Lines 108-114: `df_date`, the per-case latest-issue-date aggregation. -/
def facturesDateDf (records : List (Int × ℚ × String)) : DataFrame :=
  if records.isEmpty then { cols := ["idAffaire", "DateEmission"], rows := [] }
  else groupbyMaxStr "idAffaire" "DateEmission" (records.map (fun r => (r.1, r.2.2)))

/-- Lines 107-133: aggregate sum and max-date per case, drop prior owned
columns, two left merges, fill missing with 0.0 / empty string. -/
def updateCombineesWithFactures (dfCombined : DataFrame) (records : List (Int × ℚ × String)) :
    DataFrame :=
  fillnaCol
    (fillnaCol
      (leftMergeOn
        (leftMergeOn (facturesBase dfCombined) (facturesSumDf records) "idAffaire")
        (renameCol (facturesDateDf records) "DateEmission" "DateEmission_Facture") "idAffaire")
      "MontantFacturesHT" (Cell.cRat 0))
    "DateEmission_Facture" (Cell.cStr "")

/-- `update_affaires_combinees_with_factures` end to end, remote data as inputs. -/
def updateAffairesCombineesWithFactures (dfCombined : DataFrame) (affaireIds : List Int)
    (perCaseFactures : Int → List Int) (details : List PyObj) : DataFrame :=
  updateCombineesWithFactures dfCombined
    (details.filterMap (processFactureRec (buildIdToAff affaireIds perCaseFactures)))

/-! ## Dates -/

/-- Day ordinal of a calendar date; strictly monotone in (year, month, day)
for in-range months and days. -/
def dayOrd (y m d : Nat) : Nat := y * 372 + (m - 1) * 31 + (d - 1)

/-- Split a character list at a separator character. -/
def splitOnChar (sep : Char) : List Char → List (List Char)
  | [] => [[]]
  | c :: cs =>
    match splitOnChar sep cs with
    | [] => [[c]]
    | h :: t => if c = sep then [] :: h :: t else (c :: h) :: t

/-- All-digit character list to Nat. -/
def parseNatDigits? (cs : List Char) : Option Nat :=
  if cs ≠ [] ∧ cs.all Char.isDigit then some (digitsVal cs) else none

/-- `YYYY-MM-DD` date part of an ISO timestamp → day ordinal. -/
def parseYMD? (cs : List Char) : Option Nat :=
  match splitOnChar '-' cs with
  | [ys, ms, ds] =>
    match parseNatDigits? ys, parseNatDigits? ms, parseNatDigits? ds with
    | some y, some m, some d =>
      if 1 ≤ m ∧ m ≤ 12 ∧ 1 ≤ d ∧ d ≤ 31 then some (dayOrd y m d) else none
    | _, _, _ => none
  | _ => none

/-- `HH:MM[:SS...]` time part → minutes within the day (seconds dropped). -/
def parseHM? (cs : List Char) : Option Nat :=
  match splitOnChar ':' cs with
  | [hs, ms] | [hs, ms, _] =>
    match parseNatDigits? hs, parseNatDigits? (ms.take 2) with
    | some h, some mi => if h ≤ 23 ∧ mi ≤ 59 then some (h * 60 + mi) else none
    | _, _ => none
  | _ => none

/-- ISO `YYYY-MM-DD[THH:MM[:SS]]` timestamp → minute count. Stands in for the
ISO fragment of `dateutil.parser.parse` / `datetime.fromisoformat` on the
API's timestamp strings. -/
def parseISODateTime? (s : String) : Option Int :=
  match splitOnChar 'T' s.toList with
  | [d] => (parseYMD? d).map (fun day => (day : Int) * 1440)
  | [d, t] =>
    match parseYMD? d, parseHM? t with
    | some day, some mins => some ((day : Int) * 1440 + (mins : Int))
    | _, _ => none
  | _ => none

/-- `DD/MM/YYYY` (the `%d/%m/%Y` strptime format) → minute count at midnight. -/
def parseFRDate? (s : String) : Option Int :=
  match splitOnChar '/' s.toList with
  | [ds, ms, ys] =>
    match parseNatDigits? ds, parseNatDigits? ms, parseNatDigits? ys with
    | some d, some m, some y =>
      if 1 ≤ m ∧ m ≤ 12 ∧ 1 ≤ d ∧ d ≤ 31 then some ((dayOrd y m d : Int) * 1440) else none
    | _, _, _ => none
  | _ => none

/-- `datetime.date()` of a minute count: its calendar-day ordinal. -/
def dateOfMinutes (t : Int) : Int := t / 1440

/-! ## Case-detail fetch (fetch_affaire_details.py) -/

/-- `ETAT_MAPPING` (lines 36-40). -/
def etatMapping : Int → Option String
  | 4 => some "Creee"
  | 8 => some "EnAttente"
  | 7 => some "Acceptee"
  | 1 => some "Production"
  | 5 => some "Terminee"
  | 9 => some "Suspendue"
  | 2 => some "Cloturee"
  | 6 => some "Annulee"
  | _ => none

/-- `_map_etat` (lines 42-46): best-effort lookup, raw value kept on any failure. -/
def mapEtat (v : PyVal) : PyVal :=
  match pyInt? v with
  | some n => match etatMapping n with
    | some s => PyVal.vStr s
    | none => v
  | none => v

/-- `_map_service` / `_map_collaborateur` (lines 56-74), parameterised by the
mapping table loaded from the auxiliary file. -/
def mapLookup (table : Int → Option String) (v : PyVal) : PyVal :=
  match pyInt? v with
  | some n => match table n with
    | some s => PyVal.vStr s
    | none => v
  | none => v

/-- A fetched scalar as a pandas cell (`None` becomes NaN). -/
def cellOfPy : PyVal → Cell
  | PyVal.vNone => Cell.cNaN
  | PyVal.vInt n => Cell.cInt n
  | PyVal.vRat q => Cell.cRat q
  | PyVal.vStr s => Cell.cStr s

/-- ASCII `str.lower()` on a character. -/
def charLower (c : Char) : Char :=
  if c.isUpper then Char.ofNat (c.toNat + 32) else c

/-- `k.lower() == target` for an ASCII field name. -/
def lowerKeyIs (s target : String) : Bool :=
  s.toList.map charLower = target.toList

/-- Line 101: first case-insensitive `idAffaire` field with a non-None value.
(`int(v)` raising on a non-numeric value — an uncaught crash in the source —
is outside the modelled input space and collapsed to `none`.) -/
def findAid? (rec : PyObj) : Option Int :=
  match rec.find? (fun p => lowerKeyIs p.1 "idaffaire" ∧ p.2 ≠ PyVal.vNone) with
  | some p => pyInt? p.2
  | none => none

/-- Lines 105-109: closure-date string and its parse (any parse failure,
including a non-string value, yields None). -/
def detailDateCloture (rec : PyObj) : PyVal × Option Int :=
  let s := pyOr (pyGet rec "DateCloture") (pyGet rec "dateCloture")
  (s, if pyTruthy s then
        match s with
        | PyVal.vStr str => parseISODateTime? str
        | _ => none
      else none)

/-- Lines 111-115: mapped state, with the closed-after-period-end
reclassification to "Production". -/
def detailEtatFinal (rec : PyObj) (dtEnd : Int) : PyVal :=
  let em := mapEtat (pyGet rec "Etat")
  match (detailDateCloture rec).2 with
  | some t =>
    if em = PyVal.vStr "Cloturee" ∧ dateOfMinutes t > dateOfMinutes dtEnd then
      PyVal.vStr "Production"
    else em
  | none => em

/-- Lines 100-125: one fetched detail record to its output row (skipped when
no case id resolves). -/
def detailRow (svc collab : Int → Option String) (dtEnd : Int) (rec : PyObj) :
    Option (List Cell) :=
  (findAid? rec).map (fun aid =>
    [Cell.cInt aid,
     cellOfPy (pyGet rec "Numero"),
     cellOfPy (detailEtatFinal rec dtEnd),
     cellOfPy (pyGet rec "Objet"),
     cellOfPy (mapLookup svc (pyGet rec "IdService")),
     cellOfPy (mapLookup collab (pyGet rec "IdActeurEnCharge")),
     cellOfPy (pyOr (detailDateCloture rec).1 (PyVal.vStr ""))])

/-- `save_affaire_details` (lines 90-130): the `affaires_acteur_service` artifact
built from the batch detail response. -/
def saveAffaireDetails (svc collab : Int → Option String) (dtEnd : Int)
    (details : List PyObj) : DataFrame :=
  { cols := ["idAffaire", "Numero", "Etat", "Objet", "Service", "Collaborateur", "DateCloture"],
    rows := details.filterMap (detailRow svc collab dtEnd) }

/-- `merge_with_prixventecollab` (lines 133-145): inner merge of the detail
artifact with the per-case sale-price artifact on `idAffaire`. -/
def mergeWithPrixventecollab (dfDetails dfPrix : DataFrame) : DataFrame :=
  innerMergeOn dfDetails dfPrix "idAffaire"

/-- Batch chunking of `fetch_affaires_multi` (lines 77-87): ids in chunks of
`n`, responses concatenated in chunk order (`api` is the remote endpoint). -/
def chunkListGo (n : Nat) : Nat → List Int → List (List Int)
  | 0, _ => []
  | _, [] => []
  | Nat.succ fuel, x :: xs => ((x :: xs).take n) :: chunkListGo n fuel ((x :: xs).drop n)

/-- `range(0, len(ids), chunk_size)` batching. -/
def chunkList (n : Nat) (l : List Int) : List (List Int) := chunkListGo n l.length l

/-- `fetch_affaires_multi`: concatenated per-chunk responses. -/
def fetchAffairesMulti (api : List Int → List PyObj) (ids : List Int) (n : Nat) : List PyObj :=
  (chunkList n ids).flatMap api

/-! ## Unique case extraction (import_tempspasses.py, _export_unique_and_missing) -/

/-- The hard-coded exclusion set (line 152). -/
def excludedAffaires : List Int := [29966, 35659, 32207]

/-- Line 152: `sorted([i for i in set(raw_ids) if i not in (29966, 35659, 32207)])`. -/
def uniqueAffaireIds (rawIds : List Int) : List Int :=
  List.insertionSort (fun a b => a ≤ b)
    (rawIds.dedup.filter (fun i => ¬ i ∈ excludedAffaires))

/-! ## Per-case sale-price aggregation (fetch_affaire_tempspasses.py,
calc_prixventecollab) -/

/-- Lines 122-125: `next((int(v) for k, v in rec.items() if ...), None)` —
`int(v)` runs on the first case-insensitive id field with a non-None value,
with no `except` around the generator: a non-numeric value there raises an
uncaught ValueError, modelled as `Except.error`. -/
def tpPidE (rec : PyObj) : Except String (Option Int) :=
  match rec.find? (fun p =>
      (lowerKeyIs p.1 "idtempspasse" ∨ lowerKeyIs p.1 "id" ∨ lowerKeyIs p.1 "idpointage")
      ∧ p.2 ≠ PyVal.vNone) with
  | some p =>
    match pyInt? p.2 with
    | some n => Except.ok (some n)
    | none => Except.error "ValueError"
  | none => Except.ok none

/-- Lines 127-131: `float(pvc) if pvc is not None else 0.0`, with both
TypeError and ValueError caught and replaced by 0.0 — this conversion alone
is total. -/
def tpPvc (rec : PyObj) : ℚ :=
  match pyGet rec "PrixVenteCollaborateur" with
  | PyVal.vNone => 0
  | v => (pyFloat? v).getD 0

/-- Lines 133-142: parse a truthy `Date` with `datetime.fromisoformat`, on
ValueError retry `%d/%m/%Y`, on a second ValueError keep None. Only
ValueError is caught: `fromisoformat` on a truthy non-string raises an
uncaught TypeError, modelled as `Except.error`. -/
def tpDateE (rec : PyObj) : Except String (Option Int) :=
  if pyTruthy (pyGet rec "Date") then
    match pyGet rec "Date" with
    | PyVal.vStr s =>
      Except.ok (match parseISODateTime? s with
        | some t => some t
        | none => parseFRDate? s)
    | _ => Except.error "TypeError"
  else Except.ok none

/-- Lines 120-146: one fetched pointage record in `calc_prixventecollab`'s
loop. `Except.error` models an uncaught exception crashing the whole step
(id conversion runs before the date parse, as in the source); `ok none`
models the look-ahead date filter dropping the record (line 144);
`ok (some _)` the appended `(idTempsPasse, prix)` record. -/
def processTempspasseE (dtEnd : Int) (rec : PyObj) : Except String (Option (Option Int × ℚ)) :=
  match tpPidE rec with
  | Except.error e => Except.error e
  | Except.ok pid =>
    match tpDateE rec with
    | Except.error e => Except.error e
    | Except.ok (some t) =>
      if t > dtEnd then Except.ok none else Except.ok (some (pid, tpPvc rec))
    | Except.ok none => Except.ok (some (pid, tpPvc rec))

/-! ## Basic lemmas about the DataFrame primitives -/

/-- The value a keyed right-hand table `{k ↦ f k | k ∈ ks}` contributes for a
given left key cell. -/
def keyLookupCell (v : Cell) (ks : List Int) (f : Int → Cell) : Cell :=
  match v with
  | Cell.cInt k => if k ∈ ks then f k else Cell.cNaN
  | _ => Cell.cNaN

/-- Row contribution of an inner merge against a keyed table. -/
def innerKeyedRows (cols : List String) (key : String) (ks : List Int) (f : Int → Cell)
    (lr : List Cell) : List (List Cell) :=
  match getCellIn cols lr key with
  | Cell.cInt k => if k ∈ ks then [lr ++ [f k]] else []
  | _ => []

/-- The per-case quote total the code's aggregation yields for a given key
cell of the combined artifact. -/
def quoteTotalFor (records : List (Int × ℚ)) (v : Cell) : ℚ :=
  match v with
  | Cell.cInt k => groupSumVal records k
  | _ => 0

/-- The per-case invoice total the code's aggregation yields. -/
def invoiceTotalFor (records : List (Int × ℚ × String)) (v : Cell) : ℚ :=
  match v with
  | Cell.cInt k => groupSumVal (records.map (fun r => (r.1, r.2.1))) k
  | _ => 0

/-- The per-case latest (lexicographically maximal) issue date the code's
aggregation yields; empty string when the case has no invoice records. -/
def invoiceMaxDateFor (records : List (Int × ℚ × String)) (v : Cell) : String :=
  match v with
  | Cell.cInt k => groupMaxVal (records.map (fun r => (r.1, r.2.2))) k
  | _ => ""

theorem DataFrame.ext' {a b : DataFrame} (h1 : a.cols = b.cols) (h2 : a.rows = b.rows) :
    a = b := by
  cases a
  cases b
  cases h1
  cases h2
  rfl

theorem getCellIn_nil_row (cols : List String) (c : String) :
    getCellIn cols [] c = Cell.cNaN := by
  cases cols <;> rfl

theorem getCellIn_append_left (cols cs : List String) (r vs : List Cell) (c : String)
    (hlen : r.length = cols.length) (hmem : c ∈ cols) :
    getCellIn (cols ++ cs) (r ++ vs) c = getCellIn cols r c := by
  induction cols generalizing r with
  | nil => simp at hmem
  | cons c0 cols ih =>
    cases r with
    | nil => simp at hlen
    | cons x xs =>
      by_cases h : c0 = c
      · simp [getCellIn, h]
      · have hmem' : c ∈ cols := by
          rcases List.mem_cons.mp hmem with h' | h'
          · exact absurd h'.symm h
          · exact h'
        simp [getCellIn, h, ih xs (by simpa using hlen) hmem']

theorem getCellIn_append_right (cols cs : List String) (r vs : List Cell) (c : String)
    (hlen : r.length = cols.length) (hmem : c ∉ cols) :
    getCellIn (cols ++ cs) (r ++ vs) c = getCellIn cs vs c := by
  induction cols generalizing r with
  | nil =>
    cases r with
    | nil => rfl
    | cons x xs => simp at hlen
  | cons c0 cols ih =>
    cases r with
    | nil => simp at hlen
    | cons x xs =>
      have h : c0 ≠ c := fun h => hmem (by simp [h])
      simp [getCellIn, h, ih xs (by simpa using hlen) (fun h' => hmem (List.mem_cons_of_mem _ h'))]

theorem removeCol_eq_self (cols : List String) (c : String) (h : c ∉ cols) :
    removeCol cols c = cols := by
  induction cols with
  | nil => rfl
  | cons c0 cs ih =>
    have h0 : c0 ≠ c := fun he => h (by simp [he])
    simp [removeCol, h0, ih (fun h' => h (List.mem_cons_of_mem _ h'))]

theorem removeCol_eq_filter (cols : List String) (c : String) :
    removeCol cols c = cols.filter (fun x => x ≠ c) := by
  induction cols with
  | nil => rfl
  | cons c0 cs ih => by_cases h : c0 = c <;> simp [removeCol, h, ih]

theorem mem_removeCol (cols : List String) (c x : String) :
    x ∈ removeCol cols c ↔ x ∈ cols ∧ x ≠ c := by
  rw [removeCol_eq_filter]
  simp [List.mem_filter]

theorem dropRowCells_eq_self (cols : List String) (r : List Cell) (c : String)
    (hlen : r.length = cols.length) (h : c ∉ cols) :
    dropRowCells cols r c = r := by
  induction cols generalizing r with
  | nil => cases r with
    | nil => rfl
    | cons x xs => simp at hlen
  | cons c0 cs ih =>
    cases r with
    | nil => simp at hlen
    | cons x xs =>
      have h0 : c0 ≠ c := fun he => h (by simp [he])
      simp [dropRowCells, h0,
        ih xs (by simpa using hlen) (fun h' => h (List.mem_cons_of_mem _ h'))]

theorem length_dropRowCells (cols : List String) (r : List Cell) (c : String)
    (hlen : r.length = cols.length) :
    (dropRowCells cols r c).length = (removeCol cols c).length := by
  induction cols generalizing r with
  | nil => cases r <;> simp_all [dropRowCells, removeCol]
  | cons c0 cs ih =>
    cases r with
    | nil => simp at hlen
    | cons x xs =>
      by_cases h : c0 = c <;>
        simp [dropRowCells, removeCol, h, ih xs (by simpa using hlen)]

theorem getCellIn_dropRowCells (cols : List String) (r : List Cell) (c key : String)
    (hne : key ≠ c) :
    getCellIn (removeCol cols c) (dropRowCells cols r c) key = getCellIn cols r key := by
  induction cols generalizing r with
  | nil => cases r <;> rfl
  | cons c0 cs ih =>
    cases r with
    | nil => simp [dropRowCells, getCellIn_nil_row]
    | cons x xs =>
      by_cases h : c0 = c
      · subst h
        have h0 : c0 ≠ key := fun he => hne he.symm
        simp [dropRowCells, removeCol, getCellIn, h0, ih xs]
      · by_cases hk : c0 = key
        · subst hk
          simp [dropRowCells, removeCol, getCellIn, h]
        · simp [dropRowCells, removeCol, h, getCellIn, hk, ih xs]

theorem removeCol_append (l1 l2 : List String) (c : String) :
    removeCol (l1 ++ l2) c = removeCol l1 c ++ removeCol l2 c := by
  induction l1 with
  | nil => rfl
  | cons c0 cs ih => by_cases h : c0 = c <;> simp [removeCol, h, ih]

theorem dropRowCells_append (cols cs : List String) (r vs : List Cell) (c : String)
    (hlen : r.length = cols.length) :
    dropRowCells (cols ++ cs) (r ++ vs) c = dropRowCells cols r c ++ dropRowCells cs vs c := by
  induction cols generalizing r with
  | nil =>
    cases r with
    | nil => rfl
    | cons x xs => simp at hlen
  | cons c0 cols ih =>
    cases r with
    | nil => simp at hlen
    | cons x xs =>
      by_cases h : c0 = c <;> simp [dropRowCells, h, ih xs (by simpa using hlen)]

theorem fillnaRow_append (cols cs : List String) (r vs : List Cell) (c : String) (v : Cell)
    (hlen : r.length = cols.length) (hmem : c ∉ cols) :
    fillnaRow (cols ++ cs) (r ++ vs) c v = r ++ fillnaRow cs vs c v := by
  induction cols generalizing r with
  | nil =>
    cases r with
    | nil => rfl
    | cons x xs => simp at hlen
  | cons c0 cols ih =>
    cases r with
    | nil => simp at hlen
    | cons x xs =>
      have h : c0 ≠ c := fun he => hmem (by simp [he])
      simp [fillnaRow, h,
        ih xs (by simpa using hlen) (fun h' => hmem (List.mem_cons_of_mem _ h'))]

theorem getCellIn_not_mem (cols : List String) (r : List Cell) (c : String) (h : c ∉ cols) :
    getCellIn cols r c = Cell.cNaN := by
  induction cols generalizing r with
  | nil => cases r <;> rfl
  | cons c0 cs ih =>
    cases r with
    | nil => rfl
    | cons x xs =>
      have h0 : c0 ≠ c := fun he => h (by simp [he])
      simp [getCellIn, h0, ih xs (fun h' => h (List.mem_cons_of_mem _ h'))]

/-! ## Merging with a keyed two-column aggregate -/

theorem filter_keyed_rows (ks : List Int) (f : Int → Cell) (key c2 : String) (v : Cell)
    (hnd : ks.Nodup) :
    (ks.map (fun k => ([Cell.cInt k, f k] : List Cell))).filter
        (fun rr => cellKeyMatch (getCellIn [key, c2] rr key) v)
      = (match v with
        | Cell.cInt k0 => if k0 ∈ ks then [[Cell.cInt k0, f k0]] else []
        | _ => []) := by
  induction ks with
  | nil => cases v <;> simp
  | cons k ks ih =>
    have hnd' := hnd.of_cons
    have hnotmem : k ∉ ks := (List.nodup_cons.mp hnd).1
    have hcell : getCellIn [key, c2] [Cell.cInt k, f k] key = Cell.cInt k := by
      simp [getCellIn]
    rw [List.map_cons, List.filter_cons]
    cases v with
    | cInt k0 =>
      by_cases hk : k = k0
      · subst hk
        have hhead : cellKeyMatch (getCellIn [key, c2] [Cell.cInt k, f k] key)
            (Cell.cInt k) = true := by
          simp [hcell, cellKeyMatch]
        rw [hhead, if_pos rfl, ih hnd']
        simp [hnotmem]
      · have hhead : cellKeyMatch (getCellIn [key, c2] [Cell.cInt k, f k] key)
            (Cell.cInt k0) = false := by
          simp [hcell, cellKeyMatch, hk]
        rw [hhead]
        simp only [Bool.false_eq_true, if_false]
        rw [ih hnd']
        have hmem : (k0 ∈ k :: ks) ↔ (k0 ∈ ks) := by
          simp only [List.mem_cons]
          constructor
          · rintro (he | h)
            · exact absurd he.symm hk
            · exact h
          · exact Or.inr
        simp only [hmem]
    | cRat q =>
      have hhead : cellKeyMatch (getCellIn [key, c2] [Cell.cInt k, f k] key)
          (Cell.cRat q) = false := by simp [hcell, cellKeyMatch]
      rw [hhead]
      simp only [Bool.false_eq_true, if_false]
      exact ih hnd'
    | cStr s =>
      have hhead : cellKeyMatch (getCellIn [key, c2] [Cell.cInt k, f k] key)
          (Cell.cStr s) = false := by simp [hcell, cellKeyMatch]
      rw [hhead]
      simp only [Bool.false_eq_true, if_false]
      exact ih hnd'
    | cNaN =>
      have hhead : cellKeyMatch (getCellIn [key, c2] [Cell.cInt k, f k] key)
          Cell.cNaN = false := by simp [hcell, cellKeyMatch]
      rw [hhead]
      simp only [Bool.false_eq_true, if_false]
      exact ih hnd'

theorem dropRowCells_keyed (key c2 : String) (a b : Cell) (hc2 : c2 ≠ key) :
    dropRowCells [key, c2] [a, b] key = [b] := by
  simp [dropRowCells, hc2]

theorem leftMergeRow_keyed (lcols : List String) (key c2 : String) (ks : List Int)
    (f : Int → Cell) (lr : List Cell) (hnd : ks.Nodup) (hc2 : c2 ≠ key) :
    leftMergeRow ⟨[key, c2], ks.map (fun k => [Cell.cInt k, f k])⟩ key lcols lr
      = [lr ++ [keyLookupCell (getCellIn lcols lr key) ks f]] := by
  have hcols : removeCol [key, c2] key = [c2] := by simp [removeCol, hc2]
  unfold leftMergeRow matchRows
  rw [filter_keyed_rows ks f key c2 _ hnd]
  cases hv : getCellIn lcols lr key with
  | cInt k0 =>
    by_cases hk : k0 ∈ ks
    · simp [hk, keyLookupCell, dropRowCells_keyed key c2 _ _ hc2]
    · simp [hk, keyLookupCell, hcols]
  | cRat q => simp [keyLookupCell, hcols]
  | cStr s => simp [keyLookupCell, hcols]
  | cNaN => simp [keyLookupCell, hcols]

theorem leftMergeOn_keyed (l : DataFrame) (key c2 : String) (ks : List Int) (f : Int → Cell)
    (hnd : ks.Nodup) (hc2 : c2 ≠ key) :
    leftMergeOn l ⟨[key, c2], ks.map (fun k => [Cell.cInt k, f k])⟩ key
      = ⟨l.cols ++ [c2],
         l.rows.map (fun lr => lr ++ [keyLookupCell (getCellIn l.cols lr key) ks f])⟩ := by
  have hcols : removeCol [key, c2] key = [c2] := by simp [removeCol, hc2]
  unfold leftMergeOn
  rw [hcols]
  congr 1
  exact (List.flatMap_congr
      (fun lr _ => leftMergeRow_keyed l.cols key c2 ks f lr hnd hc2)).trans
    (List.map_eq_flatMap _ _).symm

theorem innerMergeRow_keyed (lcols : List String) (key c2 : String) (ks : List Int)
    (f : Int → Cell) (lr : List Cell) (hnd : ks.Nodup) (hc2 : c2 ≠ key) :
    innerMergeRow ⟨[key, c2], ks.map (fun k => [Cell.cInt k, f k])⟩ key lcols lr
      = innerKeyedRows lcols key ks f lr := by
  unfold innerMergeRow matchRows
  rw [filter_keyed_rows ks f key c2 _ hnd]
  cases hv : getCellIn lcols lr key with
  | cInt k0 =>
    by_cases hk : k0 ∈ ks
    · simp [hk, innerKeyedRows, hv, dropRowCells_keyed key c2 _ _ hc2]
    · simp [hk, innerKeyedRows, hv]
  | cRat q => simp [innerKeyedRows, hv]
  | cStr s => simp [innerKeyedRows, hv]
  | cNaN => simp [innerKeyedRows, hv]

theorem innerMergeOn_keyed (l : DataFrame) (key c2 : String) (ks : List Int) (f : Int → Cell)
    (hnd : ks.Nodup) (hc2 : c2 ≠ key) :
    innerMergeOn l ⟨[key, c2], ks.map (fun k => [Cell.cInt k, f k])⟩ key
      = ⟨l.cols ++ [c2], l.rows.flatMap (innerKeyedRows l.cols key ks f)⟩ := by
  have hcols : removeCol [key, c2] key = [c2] := by simp [removeCol, hc2]
  unfold innerMergeOn
  rw [hcols]
  congr 1
  exact List.flatMap_congr (fun lr _ => innerMergeRow_keyed l.cols key c2 ks f lr hnd hc2)

/-! ## The quote-update step as a row-wise equation -/

theorem aggKeys_nodup {α : Type} (records : List (Int × α)) : (aggKeys records).Nodup := by
  unfold aggKeys
  exact (List.perm_insertionSort _ _).symm.nodup (records.map Prod.fst).nodup_dedup

theorem mem_aggKeys {α : Type} (records : List (Int × α)) (k : Int) :
    k ∈ aggKeys records ↔ k ∈ records.map Prod.fst := by
  unfold aggKeys
  rw [(List.perm_insertionSort _ _).mem_iff, List.mem_dedup]

theorem groupSumVal_of_not_mem (records : List (Int × ℚ)) (k : Int)
    (h : k ∉ records.map Prod.fst) : groupSumVal records k = 0 := by
  unfold groupSumVal
  have : records.filter (fun p => p.1 = k) = [] :=
    List.filter_eq_nil_iff.mpr (fun p hp => by
      simp only [decide_eq_true_eq]
      exact fun he => h (he ▸ List.mem_map_of_mem Prod.fst hp))
  rw [this]
  rfl

theorem WF_dropCol (df : DataFrame) (c : String) (hwf : df.WF) : (dropCol df c).WF := by
  intro r hr
  rcases List.mem_map.mp hr with ⟨r0, hr0, rfl⟩
  exact length_dropRowCells df.cols r0 c (hwf r0 hr0)

theorem WF_condDropCol (df : DataFrame) (c : String) (hwf : df.WF) : (condDropCol df c).WF := by
  unfold condDropCol
  split
  · exact WF_dropCol df _ hwf
  · exact hwf

theorem not_mem_condDropCol (df : DataFrame) (c : String) : c ∉ (condDropCol df c).cols := by
  unfold condDropCol
  split
  case isTrue h =>
    intro hmem
    exact ((mem_removeCol df.cols _ _).mp hmem).2 rfl
  case isFalse h => exact h

theorem mem_of_mem_condDropCol (df : DataFrame) (c x : String)
    (h : x ∈ (condDropCol df c).cols) : x ∈ df.cols := by
  unfold condDropCol at h
  by_cases hc : c ∈ df.cols
  · rw [if_pos hc] at h
    exact ((mem_removeCol df.cols _ _).mp h).1
  · rwa [if_neg hc] at h

theorem WF_devisBase (df : DataFrame) (hwf : df.WF) : (devisBase df).WF :=
  WF_condDropCol df _ hwf

theorem montant_not_mem_devisBase (df : DataFrame) :
    "MontantTotalHT" ∉ (devisBase df).cols :=
  not_mem_condDropCol df _

theorem quoteTotalFor_nil (v : Cell) : quoteTotalFor [] v = 0 := by
  cases v <;> rfl

theorem updateDevis_eq (df : DataFrame) (records : List (Int × ℚ)) (hwf : df.WF) :
    updateCombineesWithDevis df records
      = ⟨(devisBase df).cols ++ ["MontantTotalHT"],
         (devisBase df).rows.map (fun r =>
           r ++ [Cell.cRat (quoteTotalFor records
             (getCellIn (devisBase df).cols r "idAffaire"))])⟩ := by
  have hwfd : (devisBase df).WF := WF_devisBase df hwf
  have hnm : "MontantTotalHT" ∉ (devisBase df).cols := montant_not_mem_devisBase df
  by_cases hre : records.isEmpty
  · obtain rfl : records = [] := List.isEmpty_iff.mp hre
    unfold updateCombineesWithDevis
    rw [if_pos hre]
    unfold addConstCol
    congr 1
    apply List.map_congr_left
    intro r _
    rw [quoteTotalFor_nil]
  · unfold updateCombineesWithDevis
    rw [if_neg hre]
    rw [show groupbySum "idAffaire" "MontantTotalHT" records
        = (⟨["idAffaire", "MontantTotalHT"],
            (aggKeys records).map (fun k =>
              [Cell.cInt k, Cell.cRat (groupSumVal records k)])⟩ : DataFrame) from rfl]
    rw [leftMergeOn_keyed (devisBase df) "idAffaire" "MontantTotalHT" (aggKeys records) _
      (aggKeys_nodup records) (by decide)]
    unfold fillnaCol
    congr 1
    rw [List.map_map]
    apply List.map_congr_left
    intro r hr
    show fillnaRow ((devisBase df).cols ++ ["MontantTotalHT"]) (r ++ [_]) _ _ = _
    rw [fillnaRow_append (devisBase df).cols ["MontantTotalHT"] r _ _ _ (hwfd r hr) hnm]
    congr 1
    cases hv : getCellIn (devisBase df).cols r "idAffaire" with
    | cInt k =>
      by_cases hk : k ∈ aggKeys records
      · simp [keyLookupCell, hk, fillnaRow, quoteTotalFor]
      · have h0 : groupSumVal records k = 0 :=
          groupSumVal_of_not_mem records k (fun h => hk ((mem_aggKeys records k).mpr h))
        simp [keyLookupCell, hk, fillnaRow, quoteTotalFor, h0]
    | cRat q => simp [keyLookupCell, fillnaRow, quoteTotalFor]
    | cStr s => simp [keyLookupCell, fillnaRow, quoteTotalFor]
    | cNaN => simp [keyLookupCell, fillnaRow, quoteTotalFor]

theorem WF_updateDevis (df : DataFrame) (records : List (Int × ℚ)) (hwf : df.WF) :
    (updateCombineesWithDevis df records).WF := by
  rw [updateDevis_eq df records hwf]
  intro r hr
  rcases List.mem_map.mp hr with ⟨r0, hr0, rfl⟩
  simp [WF_devisBase df hwf r0 hr0]

theorem condDropCol_of_mem (df : DataFrame) (c : String) (h : c ∈ df.cols) :
    condDropCol df c = dropCol df c := by
  unfold condDropCol
  exact if_pos h

theorem devisBase_update (df : DataFrame) (records : List (Int × ℚ)) (hwf : df.WF) :
    devisBase (updateCombineesWithDevis df records) = devisBase df := by
  have hwfd : (devisBase df).WF := WF_devisBase df hwf
  have hnm : "MontantTotalHT" ∉ (devisBase df).cols := montant_not_mem_devisBase df
  rw [updateDevis_eq df records hwf]
  show condDropCol _ "MontantTotalHT" = devisBase df
  rw [condDropCol_of_mem _ _ (by simp)]
  unfold dropCol
  have hcols : removeCol ((devisBase df).cols ++ ["MontantTotalHT"]) "MontantTotalHT"
      = (devisBase df).cols := by
    rw [removeCol_append, removeCol_eq_self _ _ hnm]
    simp [removeCol]
  apply DataFrame.ext' hcols
  show List.map _ (List.map _ (devisBase df).rows) = (devisBase df).rows
  rw [List.map_map]
  conv_rhs => rw [show (devisBase df).rows = (devisBase df).rows.map id from (List.map_id _).symm]
  apply List.map_congr_left
  intro r hr
  show dropRowCells ((devisBase df).cols ++ ["MontantTotalHT"]) (r ++ [_]) "MontantTotalHT" = r
  rw [dropRowCells_append _ _ _ _ _ (hwfd r hr),
    dropRowCells_eq_self _ _ _ (hwfd r hr) hnm]
  simp [dropRowCells]

/-- `update_affaires_combinees_with_devis` is idempotent for a fixed set of
fetched quote data. -/
theorem updateDevis_idem (df : DataFrame) (records : List (Int × ℚ)) (hwf : df.WF) :
    updateCombineesWithDevis (updateCombineesWithDevis df records) records
      = updateCombineesWithDevis df records := by
  rw [updateDevis_eq (updateCombineesWithDevis df records) records
      (WF_updateDevis df records hwf),
    devisBase_update df records hwf,
    updateDevis_eq df records hwf]

/-! ## Key cells survive the update steps -/

theorem getCellIn_append_single (cols : List String) (r : List Cell) (x : Cell)
    (c2 key : String) (hlen : r.length = cols.length) (hkey : key ≠ c2) :
    getCellIn (cols ++ [c2]) (r ++ [x]) key = getCellIn cols r key := by
  by_cases hm : key ∈ cols
  · exact getCellIn_append_left cols [c2] r [x] key hlen hm
  · rw [getCellIn_append_right cols [c2] r [x] key hlen hm, getCellIn_not_mem cols r key hm]
    simp [getCellIn, Ne.symm hkey]

theorem rowIdCells_dropCol (df : DataFrame) (c : String) (hc : "idAffaire" ≠ c) :
    rowIdCells (dropCol df c) = rowIdCells df := by
  unfold rowIdCells dropCol
  rw [List.map_map]
  apply List.map_congr_left
  intro r _
  exact getCellIn_dropRowCells df.cols r c "idAffaire" hc

theorem rowIdCells_condDropCol (df : DataFrame) (c : String) (hc : "idAffaire" ≠ c) :
    rowIdCells (condDropCol df c) = rowIdCells df := by
  unfold condDropCol
  split
  · exact rowIdCells_dropCol df _ hc
  · rfl

theorem rowIdCells_devisBase (df : DataFrame) : rowIdCells (devisBase df) = rowIdCells df :=
  rowIdCells_condDropCol df _ (by decide)

theorem rowIdCells_updateDevis (df : DataFrame) (records : List (Int × ℚ)) (hwf : df.WF) :
    rowIdCells (updateCombineesWithDevis df records) = rowIdCells df := by
  have hwfd : (devisBase df).WF := WF_devisBase df hwf
  rw [← rowIdCells_devisBase df, updateDevis_eq df records hwf]
  unfold rowIdCells
  rw [List.map_map]
  apply List.map_congr_left
  intro r hr
  exact getCellIn_append_single (devisBase df).cols r _ _ _ (hwfd r hr) (by decide)

/-! ## The invoice-update step as a row-wise equation -/

theorem groupMaxVal_of_not_mem (records : List (Int × String)) (k : Int)
    (h : k ∉ records.map Prod.fst) : groupMaxVal records k = "" := by
  unfold groupMaxVal
  have : records.filter (fun p => p.1 = k) = [] :=
    List.filter_eq_nil_iff.mpr (fun p hp => by
      simp only [decide_eq_true_eq]
      exact fun he => h (he ▸ List.mem_map_of_mem Prod.fst hp))
  rw [this]
  rfl

theorem facturesSumDf_eq (records : List (Int × ℚ × String)) :
    facturesSumDf records
      = groupbySum "idAffaire" "MontantFacturesHT" (records.map (fun r => (r.1, r.2.1))) := by
  unfold facturesSumDf
  split
  case isTrue h => obtain rfl := List.isEmpty_iff.mp h; rfl
  case isFalse h => rfl

theorem facturesDateDf_eq (records : List (Int × ℚ × String)) :
    facturesDateDf records
      = groupbyMaxStr "idAffaire" "DateEmission" (records.map (fun r => (r.1, r.2.2))) := by
  unfold facturesDateDf
  split
  case isTrue h => obtain rfl := List.isEmpty_iff.mp h; rfl
  case isFalse h => rfl

theorem renameCol_dateDf (records : List (Int × String)) :
    renameCol (groupbyMaxStr "idAffaire" "DateEmission" records)
        "DateEmission" "DateEmission_Facture"
      = ⟨["idAffaire", "DateEmission_Facture"],
         (aggKeys records).map (fun k => [Cell.cInt k, Cell.cStr (groupMaxVal records k)])⟩ := by
  unfold renameCol groupbyMaxStr
  apply DataFrame.ext' _ rfl
  simp

theorem WF_facturesBase (df : DataFrame) (hwf : df.WF) : (facturesBase df).WF :=
  WF_condDropCol _ _ (WF_condDropCol df _ hwf)

theorem mfh_not_mem_facturesBase (df : DataFrame) :
    "MontantFacturesHT" ∉ (facturesBase df).cols := fun h =>
  not_mem_condDropCol df "MontantFacturesHT" (mem_of_mem_condDropCol _ _ _ h)

theorem def_not_mem_facturesBase (df : DataFrame) :
    "DateEmission_Facture" ∉ (facturesBase df).cols :=
  not_mem_condDropCol _ _

theorem rowIdCells_facturesBase (df : DataFrame) :
    rowIdCells (facturesBase df) = rowIdCells df := by
  unfold facturesBase
  rw [rowIdCells_condDropCol _ _ (by decide), rowIdCells_condDropCol _ _ (by decide)]

theorem updateFactures_eq (df : DataFrame) (records : List (Int × ℚ × String)) (hwf : df.WF) :
    updateCombineesWithFactures df records
      = ⟨(facturesBase df).cols ++ ["MontantFacturesHT", "DateEmission_Facture"],
         (facturesBase df).rows.map (fun r =>
           r ++ [Cell.cRat (invoiceTotalFor records
                   (getCellIn (facturesBase df).cols r "idAffaire")),
                 Cell.cStr (invoiceMaxDateFor records
                   (getCellIn (facturesBase df).cols r "idAffaire"))])⟩ := by
  have hwfb : (facturesBase df).WF := WF_facturesBase df hwf
  have hnm1 : "MontantFacturesHT" ∉ (facturesBase df).cols := mfh_not_mem_facturesBase df
  have hnm2 : "DateEmission_Facture" ∉ (facturesBase df).cols := def_not_mem_facturesBase df
  unfold updateCombineesWithFactures
  rw [facturesSumDf_eq records, facturesDateDf_eq records, renameCol_dateDf]
  rw [show groupbySum "idAffaire" "MontantFacturesHT" (records.map (fun r => (r.1, r.2.1)))
      = (⟨["idAffaire", "MontantFacturesHT"],
          (aggKeys (records.map (fun r => (r.1, r.2.1)))).map (fun k =>
            [Cell.cInt k, Cell.cRat (groupSumVal (records.map (fun r => (r.1, r.2.1))) k)])⟩
        : DataFrame) from rfl]
  rw [leftMergeOn_keyed (facturesBase df) "idAffaire" "MontantFacturesHT" _ _
    (aggKeys_nodup _) (by decide)]
  rw [leftMergeOn_keyed _ "idAffaire" "DateEmission_Facture" _ _
    (aggKeys_nodup _) (by decide)]
  unfold fillnaCol
  apply DataFrame.ext'
  · show ((facturesBase df).cols ++ ["MontantFacturesHT"]) ++ ["DateEmission_Facture"] = _
    rw [List.append_assoc]
    rfl
  · show List.map _ (List.map _ (List.map _ (List.map _ (facturesBase df).rows))) = _
    rw [List.map_map, List.map_map, List.map_map]
    apply List.map_congr_left
    intro r hr
    show fillnaRow _ (fillnaRow _ ((r ++ [_]) ++ [_]) "MontantFacturesHT" (Cell.cRat 0))
        "DateEmission_Facture" (Cell.cStr "") = _
    have hid : getCellIn ((facturesBase df).cols ++ ["MontantFacturesHT"])
        (r ++ [keyLookupCell (getCellIn (facturesBase df).cols r "idAffaire")
          (aggKeys (records.map (fun r => (r.1, r.2.1))))
          (fun k => Cell.cRat (groupSumVal (records.map (fun r => (r.1, r.2.1))) k))])
        "idAffaire"
        = getCellIn (facturesBase df).cols r "idAffaire" :=
      getCellIn_append_single _ _ _ _ _ (hwfb r hr) (by decide)
    rw [hid]
    rw [show ((facturesBase df).cols ++ ["MontantFacturesHT"]) ++ ["DateEmission_Facture"]
        = (facturesBase df).cols ++ ["MontantFacturesHT", "DateEmission_Facture"]
      from List.append_assoc _ _ _]
    rw [List.append_assoc]
    rw [fillnaRow_append (facturesBase df).cols _ r _ _ _ (hwfb r hr) hnm1]
    rw [fillnaRow_append (facturesBase df).cols _ r _ _ _ (hwfb r hr) hnm2]
    congr 1
    cases hv : getCellIn (facturesBase df).cols r "idAffaire" with
    | cInt k =>
      by_cases hk1 : k ∈ aggKeys (records.map (fun r => (r.1, r.2.1)))
      · by_cases hk2 : k ∈ aggKeys (records.map (fun r => (r.1, r.2.2)))
        · simp [keyLookupCell, hk1, hk2, fillnaRow, invoiceTotalFor, invoiceMaxDateFor]
        · have h0 : groupMaxVal (records.map (fun r => (r.1, r.2.2))) k = "" :=
            groupMaxVal_of_not_mem _ k (fun h => hk2 ((mem_aggKeys _ k).mpr h))
          simp [keyLookupCell, hk1, hk2, fillnaRow, invoiceTotalFor, invoiceMaxDateFor, h0]
      · by_cases hk2 : k ∈ aggKeys (records.map (fun r => (r.1, r.2.2)))
        · have h0 : groupSumVal (records.map (fun r => (r.1, r.2.1))) k = 0 :=
            groupSumVal_of_not_mem _ k (fun h => hk1 ((mem_aggKeys _ k).mpr h))
          simp [keyLookupCell, hk1, hk2, fillnaRow, invoiceTotalFor, invoiceMaxDateFor, h0]
        · have h0 : groupSumVal (records.map (fun r => (r.1, r.2.1))) k = 0 :=
            groupSumVal_of_not_mem _ k (fun h => hk1 ((mem_aggKeys _ k).mpr h))
          have h1 : groupMaxVal (records.map (fun r => (r.1, r.2.2))) k = "" :=
            groupMaxVal_of_not_mem _ k (fun h => hk2 ((mem_aggKeys _ k).mpr h))
          simp [keyLookupCell, hk1, hk2, fillnaRow, invoiceTotalFor, invoiceMaxDateFor, h0, h1]
    | cRat q => simp [keyLookupCell, fillnaRow, invoiceTotalFor, invoiceMaxDateFor]
    | cStr s => simp [keyLookupCell, fillnaRow, invoiceTotalFor, invoiceMaxDateFor]
    | cNaN => simp [keyLookupCell, fillnaRow, invoiceTotalFor, invoiceMaxDateFor]

theorem WF_updateFactures (df : DataFrame) (records : List (Int × ℚ × String)) (hwf : df.WF) :
    (updateCombineesWithFactures df records).WF := by
  rw [updateFactures_eq df records hwf]
  intro r hr
  rcases List.mem_map.mp hr with ⟨r0, hr0, rfl⟩
  simp [WF_facturesBase df hwf r0 hr0]

theorem rowIdCells_updateFactures (df : DataFrame) (records : List (Int × ℚ × String))
    (hwf : df.WF) :
    rowIdCells (updateCombineesWithFactures df records) = rowIdCells df := by
  have hwfb : (facturesBase df).WF := WF_facturesBase df hwf
  rw [← rowIdCells_facturesBase df, updateFactures_eq df records hwf]
  unfold rowIdCells
  rw [List.map_map]
  apply List.map_congr_left
  intro r hr
  show getCellIn ((facturesBase df).cols ++ ["MontantFacturesHT", "DateEmission_Facture"])
      (r ++ [_, _]) "idAffaire" = _
  rw [show ["MontantFacturesHT", "DateEmission_Facture"]
      = ["MontantFacturesHT"] ++ ["DateEmission_Facture"] from rfl]
  rw [show (r ++ [Cell.cRat (invoiceTotalFor records
        (getCellIn (facturesBase df).cols r "idAffaire")),
      Cell.cStr (invoiceMaxDateFor records (getCellIn (facturesBase df).cols r "idAffaire"))])
      = (r ++ [Cell.cRat (invoiceTotalFor records
          (getCellIn (facturesBase df).cols r "idAffaire"))])
        ++ [Cell.cStr (invoiceMaxDateFor records
          (getCellIn (facturesBase df).cols r "idAffaire"))] by simp]
  rw [← List.append_assoc]
  rw [getCellIn_append_single _ _ _ _ _ (by simp [hwfb r hr]) (by decide)]
  exact getCellIn_append_single _ _ _ _ _ (hwfb r hr) (by decide)

/-! ## The detail artifact and the detail/price inner merge -/

theorem WF_saveAffaireDetails (svc collab : Int → Option String) (dtEnd : Int)
    (details : List PyObj) : (saveAffaireDetails svc collab dtEnd details).WF := by
  intro r hr
  rcases List.mem_filterMap.mp hr with ⟨rec, _, hrec⟩
  unfold detailRow at hrec
  rcases Option.map_eq_some'.mp hrec with ⟨aid, _, rfl⟩
  rfl

theorem rowIdCells_saveAffaireDetails (svc collab : Int → Option String) (dtEnd : Int)
    (details : List PyObj) :
    rowIdCells (saveAffaireDetails svc collab dtEnd details)
      = (details.filterMap findAid?).map Cell.cInt := by
  unfold rowIdCells saveAffaireDetails
  rw [List.map_filterMap, ← List.filterMap_eq_map, List.filterMap_filterMap]
  apply List.filterMap_congr
  intro rec _
  unfold detailRow
  cases h : findAid? rec with
  | none => rfl
  | some aid => simp [getCellIn]

theorem flatMap_sub_single {α β : Type} (l : List α) (g : α → β) (h : α → List β)
    (hh : ∀ a ∈ l, h a = [g a] ∨ h a = []) : (l.flatMap h).Sublist (l.map g) := by
  induction l with
  | nil => simp
  | cons a l ih =>
    rw [List.flatMap_cons, List.map_cons]
    rcases hh a (by simp) with he | he
    · rw [he]
      exact ((ih (fun x hx => hh x (List.mem_cons_of_mem a hx))).cons₂ (g a))
    · rw [he, List.nil_append]
      exact ((ih (fun x hx => hh x (List.mem_cons_of_mem a hx))).cons (g a))

theorem innerKeyedRows_shape (cols : List String) (key : String) (ks : List Int)
    (f : Int → Cell) (r : List Cell) :
    innerKeyedRows cols key ks f r = []
      ∨ ∃ k, getCellIn cols r key = Cell.cInt k ∧ k ∈ ks
          ∧ innerKeyedRows cols key ks f r = [r ++ [f k]] := by
  unfold innerKeyedRows
  cases h : getCellIn cols r key with
  | cInt k =>
    by_cases hk : k ∈ ks
    · right
      exact ⟨k, rfl, hk, by simp [hk]⟩
    · left
      simp [hk]
  | cRat q => left; rfl
  | cStr s => left; rfl
  | cNaN => left; rfl

theorem rowIdCells_innerKeyed (l : DataFrame) (key : String) (ks : List Int) (f : Int → Cell)
    (hwf : l.WF) (c2 : String) (hc2 : "idAffaire" ≠ c2) :
    (rowIdCells ⟨l.cols ++ [c2], l.rows.flatMap (innerKeyedRows l.cols key ks f)⟩).Sublist
      (rowIdCells l) := by
  unfold rowIdCells
  show ((l.rows.flatMap (innerKeyedRows l.cols key ks f)).map
      (fun rr => getCellIn (l.cols ++ [c2]) rr "idAffaire")).Sublist
    (l.rows.map (fun r => getCellIn l.cols r "idAffaire"))
  rw [List.map_flatMap]
  apply flatMap_sub_single
  intro r hr
  rcases innerKeyedRows_shape l.cols key ks f r with he | ⟨k, _, _, he⟩
  · right
    rw [he]
    rfl
  · left
    rw [he]
    show [getCellIn (l.cols ++ [c2]) (r ++ [f k]) "idAffaire"] = _
    rw [getCellIn_append_single l.cols r (f k) c2 "idAffaire" (hwf r hr) hc2]

/-! ## Chunked batch fetches and the orchestrator loop -/

theorem chunkListGo_subset (n fuel : Nat) (l b : List Int) (hb : b ∈ chunkListGo n fuel l) :
    ∀ x ∈ b, x ∈ l := by
  induction fuel generalizing l with
  | zero => simp [chunkListGo] at hb
  | succ fuel ih =>
    cases l with
    | nil => simp [chunkListGo] at hb
    | cons a as =>
      rcases List.mem_cons.mp hb with rfl | hb'
      · exact fun x hx => List.take_subset n _ hx
      · exact fun x hx => List.drop_subset n _ (ih _ hb' x hx)

theorem chunkList_subset (n : Nat) (l b : List Int) (hb : b ∈ chunkList n l) :
    ∀ x ∈ b, x ∈ l :=
  chunkListGo_subset n l.length l b hb

theorem mem_fetchAffairesMulti (api : List Int → List PyObj) (ids : List Int) (n : Nat)
    (rec : PyObj) (h : rec ∈ fetchAffairesMulti api ids n) :
    ∃ batch ∈ chunkList n ids, rec ∈ api batch := by
  unfold fetchAffairesMulti at h
  exact List.mem_flatMap.mp h

theorem runPipelineTrace_all_ok (steps : List PStep) (h : ∀ s ∈ steps, runStepOk s = true) :
    runPipelineTrace steps = (true, steps.map PStep.name) := by
  induction steps with
  | nil => rfl
  | cons s rest ih =>
    unfold runPipelineTrace
    rw [if_pos (h s (by simp)), ih (fun x hx => h x (List.mem_cons_of_mem s hx))]
    rfl

theorem runPipelineTrace_fail (steps : List PStep) (i : Nat) (h : i < steps.length)
    (hf : runStepOk (steps.get ⟨i, h⟩) = false) :
    (runPipelineTrace steps).1 = false
      ∧ ∃ k, k ≤ i + 1 ∧ (runPipelineTrace steps).2 = (steps.take k).map PStep.name := by
  induction steps generalizing i with
  | nil => simp at h
  | cons s rest ih =>
    by_cases hs : runStepOk s = true
    · cases i with
      | zero => rw [List.get] at hf; rw [hf] at hs; simp at hs
      | succ j =>
        have hj : j < rest.length := by simpa using h
        have hf' : runStepOk (rest.get ⟨j, hj⟩) = false := hf
        rcases ih j hj hf' with ⟨h1, k, hk, h2⟩
        unfold runPipelineTrace
        rw [if_pos hs]
        refine ⟨h1, k + 1, by omega, ?_⟩
        simp only [List.take_succ_cons, List.map_cons]
        rw [← h2]
    · unfold runPipelineTrace
      rw [if_neg hs]
      exact ⟨rfl, 1, by omega, by simp⟩

/-! ## Claim theorems -/

/-- C6: if the callable of the step at index `i` raises, `run_pipeline` returns
False and the execution trace is a prefix of the step list of length at most
`i + 1`, so no step with index greater than `i` is ever executed; if every
step succeeds, `run_pipeline` returns True. -/
theorem c6_pipeline_halts_on_failure (steps : List PStep) (i : Nat) (h : i < steps.length) :
    (runStepOk (steps.get ⟨i, h⟩) = false →
      runPipeline steps = false
        ∧ ∃ k, k ≤ i + 1 ∧ (runPipelineTrace steps).2 = (steps.take k).map PStep.name)
    ∧ ((∀ s ∈ steps, runStepOk s = true) → runPipeline steps = true) := by
  constructor
  · intro hf
    rcases runPipelineTrace_fail steps i h hf with ⟨h1, hk⟩
    exact ⟨h1, hk⟩
  · intro hall
    unfold runPipeline
    rw [runPipelineTrace_all_ok steps hall]

/-- Witness for C6 at a concrete three-step pipeline whose second step fails. -/
theorem c6_pipeline_halts_on_failure_witness :
    runPipeline [⟨"a", Except.ok "x"⟩, ⟨"b", Except.error "boom"⟩, ⟨"c", Except.ok "y"⟩] = false
      ∧ ∃ k, k ≤ 2
        ∧ (runPipelineTrace
            [⟨"a", Except.ok "x"⟩, ⟨"b", Except.error "boom"⟩, ⟨"c", Except.ok "y"⟩]).2
          = (([⟨"a", Except.ok "x"⟩, ⟨"b", Except.error "boom"⟩,
              ⟨"c", Except.ok "y"⟩] : List PStep).take k).map PStep.name :=
  (c6_pipeline_halts_on_failure
    [⟨"a", Except.ok "x"⟩, ⟨"b", Except.error "boom"⟩, ⟨"c", Except.ok "y"⟩] 1
    (by decide)).1 rfl

/-- C7 counterexample: a 404 on the per-case quote-id list is surfaced as an
error by `fetch_affaire_devis`, not mapped to the empty list. -/
theorem c7_counterexample_devis_404 :
    fetchAffaireDevis ⟨404, []⟩ ≠ Except.ok ([] : List Int) := by
  rw [show fetchAffaireDevis ⟨404, []⟩ = Except.error 404 from rfl]
  exact fun h => Except.noConfusion h

/-- C7 (amended): on HTTP 404 the per-case invoice-id fetch returns the empty
list, while the per-case quote-id fetch surfaces the 404 as an error — only
the invoice side treats 404 as an empty result. -/
theorem c7_amended_404_handling (body : List JVal) :
    fetchAffaireFactureIds ⟨404, body⟩ = Except.ok []
      ∧ fetchAffaireDevis ⟨404, body⟩ = Except.error 404 :=
  ⟨rfl, rfl⟩

/-- C2: a detail record with raw state code 2 whose closure date parses to a
calendar day strictly after the period end is reported as "Production"; with
closure day on or before the period end it keeps "Cloturee"; and the Etat
column of the detail artifact carries exactly this value. -/
theorem c2_etat_reclassification (svc collab : Int → Option String) (rec : PyObj)
    (dtEnd t : Int)
    (hstate : pyGet rec "Etat" = PyVal.vInt 2)
    (hparse : (detailDateCloture rec).2 = some t) :
    (dateOfMinutes t > dateOfMinutes dtEnd →
      detailEtatFinal rec dtEnd = PyVal.vStr "Production")
    ∧ (dateOfMinutes t ≤ dateOfMinutes dtEnd →
      detailEtatFinal rec dtEnd = PyVal.vStr "Cloturee")
    ∧ ∀ row ∈ (saveAffaireDetails svc collab dtEnd [rec]).rows,
        getCellIn (saveAffaireDetails svc collab dtEnd [rec]).cols row "Etat"
          = cellOfPy (detailEtatFinal rec dtEnd) := by
  have hmap : mapEtat (pyGet rec "Etat") = PyVal.vStr "Cloturee" := by rw [hstate]; rfl
  refine ⟨?_, ?_, ?_⟩
  · intro hgt
    simp only [detailEtatFinal, hparse, hmap]
    simp [hgt]
  · intro hle
    have hngt : ¬ dateOfMinutes t > dateOfMinutes dtEnd := by omega
    simp only [detailEtatFinal, hparse, hmap]
    simp [hngt]
  · intro row hrow
    unfold saveAffaireDetails at hrow
    rcases List.mem_filterMap.mp hrow with ⟨rec', hrec', hrow'⟩
    have heq : rec' = rec := by simpa using hrec'
    subst heq
    unfold detailRow at hrow'
    rcases Option.map_eq_some'.mp hrow' with ⟨aid, _, rfl⟩
    rfl

/-- Witness for C2: state code 2, closure date 2025-08-02, period end
31/07/2025 — the case is reported as "Production". -/
theorem c2_etat_reclassification_witness :
    detailEtatFinal
        [("IdAffaire", PyVal.vInt 42), ("Etat", PyVal.vInt 2),
         ("DateCloture", PyVal.vStr "2025-08-02")] 1085063040
      = PyVal.vStr "Production" :=
  (c2_etat_reclassification (fun _ => none) (fun _ => none)
    [("IdAffaire", PyVal.vInt 42), ("Etat", PyVal.vInt 2),
     ("DateCloture", PyVal.vStr "2025-08-02")] 1085063040 1085065920 rfl (by decide)).1
    (by decide)

/-- C3 (code bug): an ordered quote (state code 0) whose JSON uses the
lowercase `etat` key is dropped by `rec.get('etat') or rec.get('Etat')`,
because Python's `or` treats the integer 0 as falsy — so its amount never
reaches the combined artifact, although the function's own docstring says
ordered (etat == 0) quotes are summed. The same record under the uppercase
`Etat` key contributes normally. -/
theorem c3_ordered_quote_dropped_on_lowercase_etat :
    processDevisRec [(1, 42)]
        [("etat", PyVal.vInt 0), ("idDevis", PyVal.vInt 1), ("MontantTotalHT", PyVal.vInt 500)]
      = none
    ∧ processDevisRec [(1, 42)]
        [("Etat", PyVal.vInt 0), ("idDevis", PyVal.vInt 1), ("MontantTotalHT", PyVal.vInt 500)]
      = some (42, 500)
    ∧ updateAffairesCombineesWithDevis ⟨["idAffaire"], [[Cell.cInt 42]]⟩ [42] (fun _ => [1])
        [[("etat", PyVal.vInt 0), ("idDevis", PyVal.vInt 1), ("MontantTotalHT", PyVal.vInt 500)]]
      = ⟨["idAffaire", "MontantTotalHT"], [[Cell.cInt 42, Cell.cRat 0]]⟩ := by
  refine ⟨by decide, by decide, by decide⟩

/-- C10 counterexample: the aggregation is not total — a record whose truthy
`Date` is not a string (a JSON number) raises an uncaught TypeError, and a
record whose first id field holds a non-numeric value raises an uncaught
ValueError; in both cases `calc_prixventecollab` crashes and the record is
not included in any sum, contrary to the claim. -/
theorem c10_counterexample_uncaught_crashes :
    processTempspasseE 0 [("Date", PyVal.vInt 5), ("PrixVenteCollaborateur", PyVal.vInt 3)]
      = Except.error "TypeError"
    ∧ processTempspasseE 0 [("idTempsPasse", PyVal.vStr "abc"),
        ("Date", PyVal.vStr "2025-07-01"), ("PrixVenteCollaborateur", PyVal.vInt 3)]
      = Except.error "ValueError" :=
  ⟨rfl, rfl⟩

/-- C10 (amended): the `PrixVenteCollaborateur` conversion alone is total —
a None or non-numeric price contributes exactly 0.0 instead of raising. For
records that do not hit an uncaught exception (first id field numeric or
absent, `Date` missing, falsy or a string), a record whose date is missing
or unparseable is kept, and a record is dropped exactly when its date parses
and is strictly after the period end. The processing raises exactly when the
id conversion raises or the date parse raises, and the date parse raises
exactly on a truthy non-string `Date` (only ValueError is caught). -/
theorem c10_tempspasse_partial_totality (dtEnd : Int) (rec : PyObj) :
    (pyFloat? (pyGet rec "PrixVenteCollaborateur") = none → tpPvc rec = 0)
    ∧ (∀ pid, tpPidE rec = Except.ok pid →
        (tpDateE rec = Except.ok none →
          processTempspasseE dtEnd rec = Except.ok (some (pid, tpPvc rec)))
        ∧ (processTempspasseE dtEnd rec = Except.ok none ↔
            ∃ t, tpDateE rec = Except.ok (some t) ∧ t > dtEnd))
    ∧ ((∃ e, processTempspasseE dtEnd rec = Except.error e) ↔
        (∃ e, tpPidE rec = Except.error e) ∨ (∃ e, tpDateE rec = Except.error e))
    ∧ ((∃ e, tpDateE rec = Except.error e) ↔
        (pyTruthy (pyGet rec "Date") = true ∧ ∀ s, pyGet rec "Date" ≠ PyVal.vStr s)) := by
  refine ⟨?_, ?_, ?_, ?_⟩
  · intro h
    unfold tpPvc
    cases hv : pyGet rec "PrixVenteCollaborateur" with
    | vNone => rfl
    | vInt n => rw [hv] at h; simp [h]
    | vRat q => rw [hv] at h; simp [h]
    | vStr s => rw [hv] at h; simp [h]
  · intro pid hpid
    unfold processTempspasseE
    rw [hpid]
    constructor
    · intro hd
      rw [hd]
    · cases hd : tpDateE rec with
      | error e => simp
      | ok od =>
        cases od with
        | none => simp
        | some t =>
          by_cases hgt : t > dtEnd
          · simp [hgt]
          · simp [hgt]
  · unfold processTempspasseE
    cases hpid : tpPidE rec with
    | error e => simp
    | ok pid =>
      cases hd : tpDateE rec with
      | error e => simp
      | ok od =>
        cases od with
        | none => simp
        | some t =>
          by_cases hgt : t > dtEnd
          · simp [hgt]
          · simp [hgt]
  · unfold tpDateE
    cases hv : pyGet rec "Date" with
    | vStr s =>
      constructor
      · rintro ⟨e, he⟩
        by_cases ht : pyTruthy (PyVal.vStr s) = true
        · rw [if_pos ht] at he
          exact absurd he (by simp)
        · rw [if_neg ht] at he
          exact absurd he (by simp)
      · rintro ⟨-, hall⟩
        exact absurd rfl (hall s)
    | vNone =>
      rw [if_neg (by simp [pyTruthy])]
      constructor
      · rintro ⟨e, he⟩
        exact absurd he (by simp)
      · rintro ⟨ht, -⟩
        simp [pyTruthy] at ht
    | vInt n =>
      by_cases ht : pyTruthy (PyVal.vInt n) = true
      · rw [if_pos ht]
        constructor
        · intro _
          exact ⟨ht, fun s hs => PyVal.noConfusion hs⟩
        · intro _
          exact ⟨"TypeError", rfl⟩
      · rw [if_neg ht]
        constructor
        · rintro ⟨e, he⟩
          exact absurd he (by simp)
        · rintro ⟨ht2, -⟩
          exact absurd ht2 ht
    | vRat q =>
      by_cases ht : pyTruthy (PyVal.vRat q) = true
      · rw [if_pos ht]
        constructor
        · intro _
          exact ⟨ht, fun s hs => PyVal.noConfusion hs⟩
        · intro _
          exact ⟨"TypeError", rfl⟩
      · rw [if_neg ht]
        constructor
        · rintro ⟨e, he⟩
          exact absurd he (by simp)
        · rintro ⟨ht2, -⟩
          exact absurd ht2 ht

/-- Witness for C10's amended claim: a record with a well-typed but
unparseable date string and a non-numeric price is kept with a 0.0
contribution. -/
theorem c10_tempspasse_partial_totality_witness :
    tpPvc [("Date", PyVal.vStr "gibberish"), ("PrixVenteCollaborateur", PyVal.vStr "abc"),
        ("idTempsPasse", PyVal.vInt 7)] = 0
    ∧ processTempspasseE 0 [("Date", PyVal.vStr "gibberish"),
        ("PrixVenteCollaborateur", PyVal.vStr "abc"), ("idTempsPasse", PyVal.vInt 7)]
      = Except.ok (some (some 7, 0)) := by
  have h := c10_tempspasse_partial_totality 0
    [("Date", PyVal.vStr "gibberish"), ("PrixVenteCollaborateur", PyVal.vStr "abc"),
     ("idTempsPasse", PyVal.vInt 7)]
  have h1 := h.1 (by decide)
  have h2 := (h.2.1 (some 7) rfl).1 rfl
  refine ⟨h1, ?_⟩
  rw [h2, h1]

/-- C5: the quote-integration step is idempotent — for a fixed set of fetched
quote data, running `update_affaires_combinees_with_devis` twice on the
combined artifact gives the same artifact as running it once. -/
theorem c5_devis_update_idempotent (df : DataFrame) (affaireIds : List Int)
    (perCaseDevis : Int → List Int) (details : List PyObj) (hwf : df.WF) :
    updateAffairesCombineesWithDevis
        (updateAffairesCombineesWithDevis df affaireIds perCaseDevis details)
        affaireIds perCaseDevis details
      = updateAffairesCombineesWithDevis df affaireIds perCaseDevis details := by
  unfold updateAffairesCombineesWithDevis
  exact updateDevis_idem df _ hwf

/-- Witness for C5 at a concrete artifact and quote response. -/
theorem c5_devis_update_idempotent_witness :
    updateAffairesCombineesWithDevis
        (updateAffairesCombineesWithDevis
          ⟨["idAffaire", "Objet"], [[Cell.cInt 42, Cell.cStr "x"], [Cell.cInt 7, Cell.cStr "y"]]⟩
          [42] (fun _ => [1])
          [[("Etat", PyVal.vInt 0), ("idDevis", PyVal.vInt 1),
            ("MontantTotalHT", PyVal.vInt 500)]])
        [42] (fun _ => [1])
        [[("Etat", PyVal.vInt 0), ("idDevis", PyVal.vInt 1),
          ("MontantTotalHT", PyVal.vInt 500)]]
      = updateAffairesCombineesWithDevis
          ⟨["idAffaire", "Objet"], [[Cell.cInt 42, Cell.cStr "x"], [Cell.cInt 7, Cell.cStr "y"]]⟩
          [42] (fun _ => [1])
          [[("Etat", PyVal.vInt 0), ("idDevis", PyVal.vInt 1),
            ("MontantTotalHT", PyVal.vInt 500)]] :=
  c5_devis_update_idempotent
    ⟨["idAffaire", "Objet"], [[Cell.cInt 42, Cell.cStr "x"], [Cell.cInt 7, Cell.cStr "y"]]⟩
    [42] (fun _ => [1])
    [[("Etat", PyVal.vInt 0), ("idDevis", PyVal.vInt 1), ("MontantTotalHT", PyVal.vInt 500)]]
    (by decide)

/-- C8: the quote merge keeps every row of the combined artifact (each row is
its old row, minus the replaced quote column, extended by the new quote-total
cell), and a row whose case has no contributing quote gets the literal float
0.0 — not NaN, not a dropped row. -/
theorem c8_devis_merge_preserves_rows_and_defaults (df : DataFrame) (affaireIds : List Int)
    (perCaseDevis : Int → List Int) (details : List PyObj) (hwf : df.WF) :
    updateAffairesCombineesWithDevis df affaireIds perCaseDevis details
      = ⟨(devisBase df).cols ++ ["MontantTotalHT"],
         (devisBase df).rows.map (fun r =>
           r ++ [Cell.cRat (quoteTotalFor
             (details.filterMap (processDevisRec (buildIdToAff affaireIds perCaseDevis)))
             (getCellIn (devisBase df).cols r "idAffaire"))])⟩
    ∧ ∀ r ∈ (devisBase df).rows,
        (∀ p ∈ details.filterMap (processDevisRec (buildIdToAff affaireIds perCaseDevis)),
            Cell.cInt p.1 ≠ getCellIn (devisBase df).cols r "idAffaire") →
          r ++ [Cell.cRat 0]
            ∈ (updateAffairesCombineesWithDevis df affaireIds perCaseDevis details).rows := by
  have heq : updateAffairesCombineesWithDevis df affaireIds perCaseDevis details
      = ⟨(devisBase df).cols ++ ["MontantTotalHT"],
         (devisBase df).rows.map (fun r =>
           r ++ [Cell.cRat (quoteTotalFor
             (details.filterMap (processDevisRec (buildIdToAff affaireIds perCaseDevis)))
             (getCellIn (devisBase df).cols r "idAffaire"))])⟩ := by
    unfold updateAffairesCombineesWithDevis
    exact updateDevis_eq df _ hwf
  refine ⟨heq, ?_⟩
  intro r hr hnone
  rw [heq]
  have hval : quoteTotalFor
      (details.filterMap (processDevisRec (buildIdToAff affaireIds perCaseDevis)))
      (getCellIn (devisBase df).cols r "idAffaire") = 0 := by
    unfold quoteTotalFor
    cases hv : getCellIn (devisBase df).cols r "idAffaire" with
    | cInt k =>
      apply groupSumVal_of_not_mem
      intro hk
      rcases List.mem_map.mp hk with ⟨p, hp, hpk⟩
      exact hnone p hp (by rw [hpk, hv])
    | cRat q => rfl
    | cStr s => rfl
    | cNaN => rfl
  show r ++ [Cell.cRat 0] ∈ List.map _ (devisBase df).rows
  rcases List.mem_map.mp (List.mem_map_of_mem
    (fun r => r ++ [Cell.cRat (quoteTotalFor
      (details.filterMap (processDevisRec (buildIdToAff affaireIds perCaseDevis)))
      (getCellIn (devisBase df).cols r "idAffaire"))]) hr) with _
  rw [← hval]
  exact List.mem_map_of_mem _ hr

/-- Witness for C8: in a two-row artifact where case 7 has no quote, case 7's
row survives the merge extended by a literal 0.0 quote total. -/
theorem c8_devis_merge_preserves_rows_and_defaults_witness :
    [Cell.cInt 7, Cell.cStr "y"] ++ [Cell.cRat 0]
      ∈ (updateAffairesCombineesWithDevis
          ⟨["idAffaire", "Objet"], [[Cell.cInt 42, Cell.cStr "x"], [Cell.cInt 7, Cell.cStr "y"]]⟩
          [42] (fun _ => [1])
          [[("Etat", PyVal.vInt 0), ("idDevis", PyVal.vInt 1),
            ("MontantTotalHT", PyVal.vInt 500)]]).rows :=
  (c8_devis_merge_preserves_rows_and_defaults
      ⟨["idAffaire", "Objet"], [[Cell.cInt 42, Cell.cStr "x"], [Cell.cInt 7, Cell.cStr "y"]]⟩
      [42] (fun _ => [1])
      [[("Etat", PyVal.vInt 0), ("idDevis", PyVal.vInt 1), ("MontantTotalHT", PyVal.vInt 500)]]
      (by decide)).2 [Cell.cInt 7, Cell.cStr "y"] (by decide) (by decide)

/-- C9: after the invoice merge every row carries the sum of its case's
invoice amounts in `MontantFacturesHT` and the lexicographic maximum of its
case's issue dates in `DateEmission_Facture`; a row whose case has no invoice
records survives the merge with 0.0 and the empty string. -/
theorem c9_factures_sum_and_max_date (df : DataFrame) (affaireIds : List Int)
    (perCaseFactures : Int → List Int) (details : List PyObj) (hwf : df.WF) :
    updateAffairesCombineesWithFactures df affaireIds perCaseFactures details
      = ⟨(facturesBase df).cols ++ ["MontantFacturesHT", "DateEmission_Facture"],
         (facturesBase df).rows.map (fun r =>
           r ++ [Cell.cRat (invoiceTotalFor
                   (details.filterMap
                     (processFactureRec (buildIdToAff affaireIds perCaseFactures)))
                   (getCellIn (facturesBase df).cols r "idAffaire")),
                 Cell.cStr (invoiceMaxDateFor
                   (details.filterMap
                     (processFactureRec (buildIdToAff affaireIds perCaseFactures)))
                   (getCellIn (facturesBase df).cols r "idAffaire"))])⟩
    ∧ ∀ r ∈ (facturesBase df).rows,
        (∀ p ∈ details.filterMap (processFactureRec (buildIdToAff affaireIds perCaseFactures)),
            Cell.cInt p.1 ≠ getCellIn (facturesBase df).cols r "idAffaire") →
          r ++ [Cell.cRat 0, Cell.cStr ""]
            ∈ (updateAffairesCombineesWithFactures df affaireIds perCaseFactures details).rows := by
  have heq : updateAffairesCombineesWithFactures df affaireIds perCaseFactures details
      = ⟨(facturesBase df).cols ++ ["MontantFacturesHT", "DateEmission_Facture"],
         (facturesBase df).rows.map (fun r =>
           r ++ [Cell.cRat (invoiceTotalFor
                   (details.filterMap
                     (processFactureRec (buildIdToAff affaireIds perCaseFactures)))
                   (getCellIn (facturesBase df).cols r "idAffaire")),
                 Cell.cStr (invoiceMaxDateFor
                   (details.filterMap
                     (processFactureRec (buildIdToAff affaireIds perCaseFactures)))
                   (getCellIn (facturesBase df).cols r "idAffaire"))])⟩ := by
    unfold updateAffairesCombineesWithFactures
    exact updateFactures_eq df _ hwf
  refine ⟨heq, ?_⟩
  intro r hr hnone
  rw [heq]
  have hsum : invoiceTotalFor
      (details.filterMap (processFactureRec (buildIdToAff affaireIds perCaseFactures)))
      (getCellIn (facturesBase df).cols r "idAffaire") = 0 := by
    unfold invoiceTotalFor
    cases hv : getCellIn (facturesBase df).cols r "idAffaire" with
    | cInt k =>
      apply groupSumVal_of_not_mem
      intro hk
      rcases List.mem_map.mp hk with ⟨q, hq, hqk⟩
      rcases List.mem_map.mp hq with ⟨p, hp, rfl⟩
      exact hnone p hp (by rw [hv]; exact congrArg Cell.cInt hqk)
    | cRat q => rfl
    | cStr s => rfl
    | cNaN => rfl
  have hdate : invoiceMaxDateFor
      (details.filterMap (processFactureRec (buildIdToAff affaireIds perCaseFactures)))
      (getCellIn (facturesBase df).cols r "idAffaire") = "" := by
    unfold invoiceMaxDateFor
    cases hv : getCellIn (facturesBase df).cols r "idAffaire" with
    | cInt k =>
      apply groupMaxVal_of_not_mem
      intro hk
      rcases List.mem_map.mp hk with ⟨q, hq, hqk⟩
      rcases List.mem_map.mp hq with ⟨p, hp, rfl⟩
      exact hnone p hp (by rw [hv]; exact congrArg Cell.cInt hqk)
    | cRat q => rfl
    | cStr s => rfl
    | cNaN => rfl
  show r ++ [Cell.cRat 0, Cell.cStr ""] ∈ List.map _ (facturesBase df).rows
  rw [← hsum, ← hdate]
  exact List.mem_map_of_mem _ hr

/-- Witness for C9: a two-row artifact where case 7 has no invoice keeps
case 7's row with amount 0.0 and empty issue date. -/
theorem c9_factures_sum_and_max_date_witness :
    [Cell.cInt 7, Cell.cStr "y"] ++ [Cell.cRat 0, Cell.cStr ""]
      ∈ (updateAffairesCombineesWithFactures
          ⟨["idAffaire", "Objet"], [[Cell.cInt 42, Cell.cStr "x"], [Cell.cInt 7, Cell.cStr "y"]]⟩
          [42] (fun _ => [9])
          [[("idFacture", PyVal.vInt 9), ("MontantTotalHT", PyVal.vInt 750),
            ("DateEmission", PyVal.vStr "2025-07-15")]]).rows :=
  (c9_factures_sum_and_max_date
      ⟨["idAffaire", "Objet"], [[Cell.cInt 42, Cell.cStr "x"], [Cell.cInt 7, Cell.cStr "y"]]⟩
      [42] (fun _ => [9])
      [[("idFacture", PyVal.vInt 9), ("MontantTotalHT", PyVal.vInt 750),
        ("DateEmission", PyVal.vStr "2025-07-15")]]
      (by decide)).2 [Cell.cInt 7, Cell.cStr "y"] (by decide) (by decide)

/-- C1 counterexample: a detail response containing the same case record twice
flows into the detail/price inner merge unchecked, producing a combined
artifact with two rows sharing idAffaire 1 — the merge never verifies key
uniqueness. -/
theorem c1_counterexample_duplicate_detail :
    ¬ uniqueIdRows (mergeWithPrixventecollab
      (saveAffaireDetails (fun _ => none) (fun _ => none) 0
        [[("IdAffaire", PyVal.vInt 1), ("Etat", PyVal.vInt 1)],
         [("IdAffaire", PyVal.vInt 1), ("Etat", PyVal.vInt 1)]])
      (groupbySum "idAffaire" "PrixVenteCollaborateur" [(1, 10)])) := by
  decide

theorem mergeWithPrix_keyed (sd : DataFrame) (prixRecords : List (Int × ℚ)) :
    mergeWithPrixventecollab sd (groupbySum "idAffaire" "PrixVenteCollaborateur" prixRecords)
      = ⟨sd.cols ++ ["PrixVenteCollaborateur"],
         sd.rows.flatMap (innerKeyedRows sd.cols "idAffaire" (aggKeys prixRecords)
           (fun k => Cell.cRat (groupSumVal prixRecords k)))⟩ := by
  unfold mergeWithPrixventecollab
  exact innerMergeOn_keyed sd "idAffaire" "PrixVenteCollaborateur" _ _
    (aggKeys_nodup _) (by decide)

theorem WF_innerKeyed (l : DataFrame) (key c2 : String) (ks : List Int) (f : Int → Cell)
    (hwf : l.WF) :
    DataFrame.WF ⟨l.cols ++ [c2], l.rows.flatMap (innerKeyedRows l.cols key ks f)⟩ := by
  intro r hr
  rcases List.mem_flatMap.mp hr with ⟨r0, hr0, hrr⟩
  rcases innerKeyedRows_shape l.cols key ks f r0 with he | ⟨k, _, _, he⟩
  · rw [he] at hrr
    simp at hrr
  · rw [he] at hrr
    simp at hrr
    subst hrr
    simp [hwf r0 hr0]

/-- C1 (amended): if the fetched case-detail records resolve to pairwise
distinct case ids (one record per requested case, as the API contract
provides), then the detail/price merge yields an artifact with unique
idAffaire, and both the quote and the invoice update steps preserve that
uniqueness through to the final combined artifact. -/
theorem c1_unique_ids_preserved (svc collab : Int → Option String) (dtEnd : Int)
    (details : List PyObj) (prixRecords : List (Int × ℚ))
    (aIds1 : List Int) (pc1 : Int → List Int) (d1 : List PyObj)
    (aIds2 : List Int) (pc2 : Int → List Int) (d2 : List PyObj)
    (hnd : (details.filterMap findAid?).Nodup) :
    uniqueIdRows (mergeWithPrixventecollab (saveAffaireDetails svc collab dtEnd details)
      (groupbySum "idAffaire" "PrixVenteCollaborateur" prixRecords))
    ∧ uniqueIdRows (updateAffairesCombineesWithFactures
        (updateAffairesCombineesWithDevis
          (mergeWithPrixventecollab (saveAffaireDetails svc collab dtEnd details)
            (groupbySum "idAffaire" "PrixVenteCollaborateur" prixRecords))
          aIds1 pc1 d1)
        aIds2 pc2 d2) := by
  have hwfsd : (saveAffaireDetails svc collab dtEnd details).WF :=
    WF_saveAffaireDetails svc collab dtEnd details
  have hmerge := mergeWithPrix_keyed (saveAffaireDetails svc collab dtEnd details) prixRecords
  have hnodup_sd : (rowIdCells (saveAffaireDetails svc collab dtEnd details)).Nodup := by
    rw [rowIdCells_saveAffaireDetails]
    exact hnd.map (fun a b h => by injection h)
  have hsub := rowIdCells_innerKeyed (saveAffaireDetails svc collab dtEnd details) "idAffaire"
    (aggKeys prixRecords) (fun k => Cell.cRat (groupSumVal prixRecords k)) hwfsd
    "PrixVenteCollaborateur" (by decide)
  have h1 : uniqueIdRows (mergeWithPrixventecollab (saveAffaireDetails svc collab dtEnd details)
      (groupbySum "idAffaire" "PrixVenteCollaborateur" prixRecords)) := by
    unfold uniqueIdRows
    rw [hmerge]
    exact hnodup_sd.sublist hsub
  have hwfm : (mergeWithPrixventecollab (saveAffaireDetails svc collab dtEnd details)
      (groupbySum "idAffaire" "PrixVenteCollaborateur" prixRecords)).WF := by
    rw [hmerge]
    exact WF_innerKeyed _ _ _ _ _ hwfsd
  refine ⟨h1, ?_⟩
  unfold uniqueIdRows
  unfold updateAffairesCombineesWithFactures updateAffairesCombineesWithDevis
  rw [rowIdCells_updateFactures _ _ (WF_updateDevis _ _ hwfm),
    rowIdCells_updateDevis _ _ hwfm]
  exact h1

/-- Witness for C1's amended claim at a concrete two-case detail response. -/
theorem c1_unique_ids_preserved_witness :
    uniqueIdRows (mergeWithPrixventecollab
      (saveAffaireDetails (fun _ => none) (fun _ => none) 0
        [[("IdAffaire", PyVal.vInt 1)], [("IdAffaire", PyVal.vInt 2)]])
      (groupbySum "idAffaire" "PrixVenteCollaborateur" [(1, 10)]))
    ∧ uniqueIdRows (updateAffairesCombineesWithFactures
        (updateAffairesCombineesWithDevis
          (mergeWithPrixventecollab
            (saveAffaireDetails (fun _ => none) (fun _ => none) 0
              [[("IdAffaire", PyVal.vInt 1)], [("IdAffaire", PyVal.vInt 2)]])
            (groupbySum "idAffaire" "PrixVenteCollaborateur" [(1, 10)]))
          [1, 2] (fun _ => []) [])
        [1, 2] (fun _ => []) []) :=
  c1_unique_ids_preserved (fun _ => none) (fun _ => none) 0
    [[("IdAffaire", PyVal.vInt 1)], [("IdAffaire", PyVal.vInt 2)]] [(1, 10)]
    [1, 2] (fun _ => []) [] [1, 2] (fun _ => []) [] (by decide)

/-- C4: the hard-excluded case ids 29966, 35659 and 32207 never appear in the
`unique_affaires` list, whatever the enriched time-entry ids; and, under the
API contract that a batch detail endpoint only returns records for requested
ids, no row of the final combined artifact carries an excluded id either. -/
theorem c4_hard_excluded_ids_absent (rawIds : List Int) (api : List Int → List PyObj)
    (svc collab : Int → Option String) (dtEnd : Int) (n : Nat)
    (prixRecords : List (Int × ℚ))
    (aIds1 : List Int) (pc1 : Int → List Int) (d1 : List PyObj)
    (aIds2 : List Int) (pc2 : Int → List Int) (d2 : List PyObj)
    (x : Int) (hx : x ∈ excludedAffaires)
    (hapi : ∀ batch rec, rec ∈ api batch → ∀ aid, findAid? rec = some aid → aid ∈ batch) :
    x ∉ uniqueAffaireIds rawIds
    ∧ Cell.cInt x ∉ rowIdCells (updateAffairesCombineesWithFactures
        (updateAffairesCombineesWithDevis
          (mergeWithPrixventecollab
            (saveAffaireDetails svc collab dtEnd
              (fetchAffairesMulti api (uniqueAffaireIds rawIds) n))
            (groupbySum "idAffaire" "PrixVenteCollaborateur" prixRecords))
          aIds1 pc1 d1)
        aIds2 pc2 d2) := by
  have hpart1 : x ∉ uniqueAffaireIds rawIds := by
    intro hmem
    unfold uniqueAffaireIds at hmem
    have h2 := (List.perm_insertionSort (fun a b => a ≤ b) _).mem_iff.mp hmem
    have h3 := (List.mem_filter.mp h2).2
    simp only [decide_eq_true_eq] at h3
    exact h3 hx
  refine ⟨hpart1, ?_⟩
  intro hmem
  have hwfsd : (saveAffaireDetails svc collab dtEnd
      (fetchAffairesMulti api (uniqueAffaireIds rawIds) n)).WF :=
    WF_saveAffaireDetails svc collab dtEnd _
  have hmerge := mergeWithPrix_keyed (saveAffaireDetails svc collab dtEnd
    (fetchAffairesMulti api (uniqueAffaireIds rawIds) n)) prixRecords
  have hwfm : (mergeWithPrixventecollab
      (saveAffaireDetails svc collab dtEnd
        (fetchAffairesMulti api (uniqueAffaireIds rawIds) n))
      (groupbySum "idAffaire" "PrixVenteCollaborateur" prixRecords)).WF := by
    rw [hmerge]
    exact WF_innerKeyed _ _ _ _ _ hwfsd
  unfold updateAffairesCombineesWithFactures updateAffairesCombineesWithDevis at hmem
  rw [rowIdCells_updateFactures _ _ (WF_updateDevis _ _ hwfm),
    rowIdCells_updateDevis _ _ hwfm, hmerge] at hmem
  have hsub := rowIdCells_innerKeyed (saveAffaireDetails svc collab dtEnd
      (fetchAffairesMulti api (uniqueAffaireIds rawIds) n)) "idAffaire"
    (aggKeys prixRecords) (fun k => Cell.cRat (groupSumVal prixRecords k)) hwfsd
    "PrixVenteCollaborateur" (by decide)
  have hmem2 := hsub.subset hmem
  rw [rowIdCells_saveAffaireDetails] at hmem2
  rcases List.mem_map.mp hmem2 with ⟨aid, haid, heq⟩
  have haidx : aid = x := by injection heq
  subst haidx
  rcases List.mem_filterMap.mp haid with ⟨rec, hrecmem, hfind⟩
  rcases mem_fetchAffairesMulti api (uniqueAffaireIds rawIds) n rec hrecmem with
    ⟨batch, hbatch, hrec⟩
  have hxin : aid ∈ batch := hapi batch rec hrec aid hfind
  exact hpart1 (chunkList_subset n (uniqueAffaireIds rawIds) batch hbatch aid hxin)

/-- Witness for C4: id 29966 is excluded for a concrete raw-id list and an API
that answers one record per requested id. -/
theorem c4_hard_excluded_ids_absent_witness :
    (29966 : Int) ∉ uniqueAffaireIds [29966, 3]
    ∧ Cell.cInt 29966 ∉ rowIdCells (updateAffairesCombineesWithFactures
        (updateAffairesCombineesWithDevis
          (mergeWithPrixventecollab
            (saveAffaireDetails (fun _ => none) (fun _ => none) 0
              (fetchAffairesMulti
                (fun batch => batch.map (fun i => [("IdAffaire", PyVal.vInt i)]))
                (uniqueAffaireIds [29966, 3]) 100))
            (groupbySum "idAffaire" "PrixVenteCollaborateur" [(3, 10)]))
          [3] (fun _ => []) [])
        [3] (fun _ => []) []) :=
  c4_hard_excluded_ids_absent [29966, 3]
    (fun batch => batch.map (fun i => [("IdAffaire", PyVal.vInt i)]))
    (fun _ => none) (fun _ => none) 0 100 [(3, 10)]
    [3] (fun _ => []) [] [3] (fun _ => []) [] 29966 (by decide)
    (by
      intro batch rec hrec aid hfind
      rcases List.mem_map.mp hrec with ⟨i, hi, rfl⟩
      have heq : (some i : Option Int) = some aid := hfind
      injection heq with h
      rw [← h]
      exact hi)
